import Mathlib

/-!
Verification of the googleadsdashboard synchronization and anomaly-detection
core, as a shallow embedding of `backend/app/services/sync_service.py`,
`backend/app/services/spike_detector.py` and `backend/app/models/metrics.py`.

Modelling conventions:
* dates are `Int` (days); metric quantities are `ℚ` (the code stores exact
  decimals; float arithmetic of the detector is modelled exactly over `ℚ`);
* the z-score `(value - mean) / std` involves a square root, which is not
  rational; it is encoded exactly as a pair `ZScore` of numerator and
  variance, denoting `num / Real.sqrt var`, with `var = 0` branches encoded
  as the literal zero `⟨0, 1⟩` exactly as the code returns `0.0`;
* the SQLAlchemy session is a `Store` of lists of rows; python dict lookups
  built from `SELECT` results are modelled as first-match searches over the
  row lists (the two coincide under the database's key uniqueness);
* surrogate uuid primary keys are modelled by a deterministic fresh-id
  counter `Store.nextId`; timestamps are explicit `now : Int` parameters.
-/

namespace GAds

/-! ### Generic list helpers -/

/-- Replace the first element satisfying `p` by its image under `f`
(models an in-place mutation of the object found by a first-match lookup). -/
def updateFirst (p : α → Bool) (f : α → α) : List α → List α
  | [] => []
  | x :: xs => if p x then f x :: xs else x :: updateFirst p f xs

/-- `l[-n:]` in python: the last `n` elements (all of `l` when `n ≥ |l|`). -/
def lastN (n : Nat) (l : List α) : List α := l.drop (l.length - n)

/-- First-match association lookup (python dict access, keys unique). -/
def lookupStr (l : List (String × α)) (k : String) : Option α :=
  (l.find? (fun p => p.1 == k)).map (·.2)

/-! ### Anomaly engine: `spike_detector.py` -/

inductive AlertSeverity
  | INFO
  | WARNING
  | CRITICAL
deriving DecidableEq, Repr

inductive AlertType
  | POSITIVE_SPIKE
  | NEGATIVE_SPIKE
  | VOLUME_ANOMALY
deriving DecidableEq, Repr

/-- Exact encoding of the float z-score: denotes `num / Real.sqrt var`
(`var` is the population variance of the trailing window, `std = √var`).
The `std == 0` early-return of `_calculate_z_score` is the literal zero
`⟨0, 1⟩`. -/
structure ZScore where
  num : ℚ
  var : ℚ
deriving DecidableEq, Repr

/-- `abs z ≥ t` for `z = num/√var`, exactly: `t² · var ≤ num²`
(for the thresholds `t ≥ 0` and `var > 0` of the code; on the encoded
zero `⟨0, 1⟩` it gives `t² ≤ 0`, i.e. `0 ≥ t`, matching `abs 0.0 >= t`). -/
def ZScore.absGe (z : ZScore) (t : ℚ) : Bool := decide (t ^ 2 * z.var ≤ z.num ^ 2)

/-- `SpikeAlert` dataclass. The `detected_at` wall-clock timestamp is
outside every claim and omitted; `message` keeps the `%.1f`/`int()` float
formatting abstracted to exact rational rendering. -/
structure SpikeAlert where
  metric : String
  alert_type : AlertType
  severity : AlertSeverity
  current_value : ℚ
  previous_value : ℚ
  z_score : ZScore
  percent_change : ℚ
  message : String
  campaign_id : Option String
  campaign_name : Option String
deriving DecidableEq, Repr

/-- `DetectionConfig` (the unused `cost_absolute_*` fields are omitted:
no code path reads them). -/
structure DetectionConfig where
  z_score_warning : ℚ
  z_score_critical : ℚ
  percent_warning : ℚ
  percent_critical : ℚ
  min_data_points : Nat
  window_size : Nat
deriving DecidableEq, Repr

/-- `create_default_detector()` / the dataclass defaults. -/
def defaultConfig : DetectionConfig :=
  { z_score_warning := 5 / 2
    z_score_critical := 7 / 2
    percent_warning := 30
    percent_critical := 50
    min_data_points := 7
    window_size := 7 }

/-- `np.mean` (callers always pass nonempty lists). -/
def mean (l : List ℚ) : ℚ := l.sum / l.length

/-- square of `np.std`: the population variance; `std == 0 ↔ pvariance = 0`. -/
def pvariance (l : List ℚ) : ℚ := (l.map (fun x => (x - mean l) ^ 2)).sum / l.length

/-- `SpikeDetector._calculate_z_score`. -/
def calculateZScore (cfg : DetectionConfig) (value : ℚ) (historical : List ℚ) : ZScore :=
  if historical.isEmpty then ⟨0, 1⟩
  else
    let w := lastN cfg.window_size historical
    let m := mean w
    let v := pvariance w
    if v = 0 then ⟨0, 1⟩ else ⟨value - m, v⟩

/-- `SpikeDetector._calculate_percent_change`. -/
def calculatePercentChange (current previous : ℚ) : ℚ :=
  if previous = 0 then (if current = 0 then 0 else 100)
  else (current - previous) / previous * 100

/-- `SpikeDetector.POSITIVE_METRICS`. -/
def POSITIVE_METRICS : List String :=
  ["conversions", "conversion_value", "roas", "ctr", "clicks", "impressions"]

/-- `SpikeDetector._evaluate_spike`. -/
def evaluateSpike (cfg : DetectionConfig) (metric_name : String)
    (current_value previous_value : ℚ) (z : ZScore) (percent_change : ℚ)
    (campaign_id campaign_name : Option String) : Option SpikeAlert :=
  let abs_pct := |percent_change|
  let sev? : Option AlertSeverity :=
    if z.absGe cfg.z_score_critical || decide (cfg.percent_critical ≤ abs_pct) then
      some .CRITICAL
    else if z.absGe cfg.z_score_warning || decide (cfg.percent_warning ≤ abs_pct) then
      some .WARNING
    else none
  match sev? with
  | none => none
  | some severity =>
    let is_positive := POSITIVE_METRICS.contains metric_name.toLower
    let is_increase := decide (0 < percent_change)
    let td : AlertType × String :=
      if is_positive then
        if is_increase then (.POSITIVE_SPIKE, "increased") else (.NEGATIVE_SPIKE, "decreased")
      else
        if is_increase then (.NEGATIVE_SPIKE, "increased") else (.POSITIVE_SPIKE, "decreased")
    let mu := metric_name.toUpper
    let dir := td.2
    let apc := toString (|percent_change|)
    let pv := toString previous_value
    let cv := toString current_value
    let base := s!"{mu} {dir} by {apc}% ({pv} -> {cv})"
    let message :=
      match campaign_name with
      | some cn => s!"Campaign {cn}: {base}"
      | none => base
    some
      { metric := metric_name
        alert_type := td.1
        severity := severity
        current_value := current_value
        previous_value := previous_value
        z_score := z
        percent_change := percent_change
        message := message
        campaign_id := campaign_id
        campaign_name := campaign_name }

/-- `SpikeDetector.detect_spikes`. `historical[-1]` is guarded by the
`min_data_points` check (`≥ 7` by default), so the list is nonempty there;
the `getLastD 0` default is unreachable for `min_data_points ≥ 1`. -/
def detectSpikes (cfg : DetectionConfig) (metric_name : String) (current_value : ℚ)
    (historical_values : List ℚ) (campaign_id campaign_name : Option String) :
    Option SpikeAlert :=
  if historical_values.length < cfg.min_data_points then none
  else
    let z := calculateZScore cfg current_value historical_values
    let previous := historical_values.getLastD 0
    let pct := calculatePercentChange current_value previous
    evaluateSpike cfg metric_name current_value previous z pct campaign_id campaign_name

/-- `SpikeDetector.detect_volume_anomaly`. -/
def detectVolumeAnomaly (cfg : DetectionConfig) (impressions : ℚ)
    (historical_impressions : List ℚ) (campaign_id campaign_name : Option String) :
    Option SpikeAlert :=
  if historical_impressions.length < cfg.min_data_points then none
  else
    let avg := mean (lastN cfg.window_size historical_impressions)
    if avg = 0 then none
    else
      let pct := (impressions - avg) / avg * 100
      if pct < -50 then
        let ai := toString (|pct|)
        let ii := toString impressions
        let ia := toString avg
        let base := s!"Impression volume dropped {ai}% ({ii} vs avg {ia})"
        let message :=
          match campaign_name with
          | some cn => s!"Campaign {cn}: {base}"
          | none => base
        some
          { metric := "impressions"
            alert_type := .VOLUME_ANOMALY
            severity := .CRITICAL
            current_value := impressions
            previous_value := avg
            z_score := calculateZScore cfg impressions historical_impressions
            percent_change := pct
            message := message
            campaign_id := campaign_id
            campaign_name := campaign_name }
      else none

/-- The generic per-metric loop of `analyze_metrics_batch` (alerts from
`detect_spikes` over the metrics map, in map order). -/
def genericAlerts (cfg : DetectionConfig) (metrics : List (String × ℚ))
    (historical_metrics : List (String × List ℚ))
    (campaign_id campaign_name : Option String) : List SpikeAlert :=
  metrics.foldl
    (fun acc p =>
      match lookupStr historical_metrics p.1 with
      | none => acc
      | some historical =>
        match detectSpikes cfg p.1 p.2 historical campaign_id campaign_name with
        | none => acc
        | some a => acc ++ [a])
    []

/-- `SpikeDetector.analyze_metrics_batch`. -/
def analyzeMetricsBatch (cfg : DetectionConfig) (metrics : List (String × ℚ))
    (historical_metrics : List (String × List ℚ))
    (campaign_id campaign_name : Option String) : List SpikeAlert :=
  let generic := genericAlerts cfg metrics historical_metrics campaign_id campaign_name
  match lookupStr metrics "impressions", lookupStr historical_metrics "impressions" with
  | some cur, some hist =>
    match detectVolumeAnomaly cfg cur hist campaign_id campaign_name with
    | some a => generic ++ [a]
    | none => generic
  | _, _ => generic

/-! ### Window planner: `sync_recent` (lines 294-327) and
`backfill_history` (lines 338-353) of `sync_service.py` -/

/-- The date-window computation of `SyncService.sync_recent`: from the
store-wide latest metric date (`SELECT max(daily_metrics.date)`) and today,
returns the `(start_date, end_date)` passed to `sync_all_accounts`. -/
def recentWindow (latest : Option Int) (today : Int) : Int × Int :=
  let defaultStart := today - 1
  let start :=
    match latest with
    | none => defaultStart
    | some l =>
      let nextDay := l + 1
      let daysGap := today - nextDay
      if 0 ≤ daysGap ∧ daysGap ≤ 14 then nextDay
      else if 14 < daysGap then today - 3
      else defaultStart
  let start := if today < start then today else start
  (start, today)

/-- The chunk computation of `SyncService.backfill_history`: from the
store-wide earliest metric date (`today` when the store is empty) propose
the preceding `daysPerRun`-day chunk, or `none` past the 730-day horizon. -/
def backfillWindow (earliest : Option Int) (today : Int) (daysPerRun : Int) :
    Option (Int × Int) :=
  let e := earliest.getD today
  let start := e - daysPerRun
  let stop := e - 1
  let minAllowed := today - 730
  if start < minAllowed then none else some (start, stop)

/-- One backfill round as seen by the earliest stored date: after the
proposed chunk `[start, e-1]` is fetched and reconciled, the earliest
stored date becomes the chunk start; with no proposal it is unchanged. -/
def backfillStep (today daysPerRun e : Int) : Int :=
  match backfillWindow (some e) today daysPerRun with
  | some (s, _) => s
  | none => e

/-- `k` repeated backfill rounds. -/
def backfillIter (today daysPerRun : Int) : Nat → Int → Int
  | 0, e => e
  | k + 1, e => backfillIter today daysPerRun k (backfillStep today daysPerRun e)

/-! ### Data model: `models/metrics.py`, `models/campaign.py`,
`models/account.py`, restricted to the fields the sync engine touches -/

/-- One fetched row of `fetch_daily_metrics` (the loosely-typed dict).
`g_id` is `row.get("google_campaign_id")`; `none` is the missing /
falsy case skipped at row granularity. -/
structure MetricRow where
  g_id : Option String
  campaign_name : Option String
  date : Int
  device : String
  network : String
  impressions : Int
  clicks : Int
  cost_micros : Int
  conversions : ℚ
  conversion_value : ℚ
deriving DecidableEq, Repr

/-- `Campaign` row (id is the surrogate primary key). -/
structure Campaign where
  id : Nat
  account_id : Nat
  google_campaign_id : String
  name : Option String
deriving DecidableEq, Repr

/-- `DailyMetric` row. The random uuid primary key is omitted (no sync
logic reads it; rows are looked up by `(campaign_id, date)`). -/
structure DailyMetric where
  account_id : Nat
  campaign_id : Nat
  date : Int
  device : String
  network : String
  impressions : Int
  clicks : Int
  cost_micros : Int
  conversions : ℚ
  conversion_value : ℚ
  ctr : Option ℚ
  cpc : Option ℚ
  cpa : Option ℚ
  roas : Option ℚ
deriving DecidableEq, Repr

/-- `GoogleAdsAccount` row. -/
structure GoogleAdsAccount where
  id : Nat
  user_id : Nat
  customer_id : String
  name : String
  refresh_token : String
  is_manager : Bool
  is_active : Bool
  last_sync_at : Option Int
deriving DecidableEq, Repr

/-- `DailyMetric.cost`: micros to currency units. -/
def DailyMetric.cost (m : DailyMetric) : ℚ := (m.cost_micros : ℚ) / 1000000

/-- `DailyMetric.calculate_derived_metrics`: each ratio is recomputed only
when its guard holds, otherwise the previously stored value remains. -/
def calculateDerivedMetrics (m : DailyMetric) : DailyMetric :=
  let m1 := if 0 < m.impressions then
      { m with ctr := some ((m.clicks : ℚ) / (m.impressions : ℚ)) } else m
  let m2 := if 0 < m1.clicks then
      { m1 with cpc := some (m1.cost / (m1.clicks : ℚ)) } else m1
  if 0 < m2.conversions then
    let m3 := { m2 with cpa := some (m2.cost / m2.conversions) }
    if 0 < m3.cost then { m3 with roas := some (m3.conversion_value / m3.cost) } else m3
  else m2

/-- The per-row overwrite of `_process_metrics` (lines 274-286): raw
counters are assigned from the fetched row, then `calculate_derived_metrics`
runs on the updated object. -/
def applyRow (r : MetricRow) (m : DailyMetric) : DailyMetric :=
  calculateDerivedMetrics
    { m with
      impressions := r.impressions
      clicks := r.clicks
      cost_micros := r.cost_micros
      conversions := r.conversions
      conversion_value := r.conversion_value }

/-- The database session / committed state seen by the sync service.
`nextId` deterministically models surrogate-key generation. -/
structure Store where
  accounts : List GoogleAdsAccount
  campaigns : List Campaign
  metrics : List DailyMetric
  nextId : Nat
deriving DecidableEq, Repr

def emptyStore : Store := ⟨[], [], [], 0⟩

/-- `SELECT max(daily_metrics.date)` — over the whole table, with no
account or user filter (`sync_recent`, line 297). -/
def storeMaxDate (s : Store) : Option Int := (s.metrics.map (·.date)).max?

/-- `SELECT min(daily_metrics.date)` — over the whole table, with no
account or user filter (`backfill_history`, line 339). -/
def storeMinDate (s : Store) : Option Int := (s.metrics.map (·.date)).min?

/-! ### Reconciliation: `_process_metrics` and per-account processing -/

/-- First campaign of the session with the given account and external id
(the batched lookup dict of `_process_metrics`, step 2). -/
def findCampaign (cs : List Campaign) (aid : Nat) (g : String) : Option Campaign :=
  cs.find? (fun c => c.account_id == aid && c.google_campaign_id == g)

def metricKeyMatch (cid : Nat) (d : Int) (m : DailyMetric) : Bool :=
  m.campaign_id == cid && m.date == d

def campaignKeyMatch (aid : Nat) (g : String) (c : Campaign) : Bool :=
  c.account_id == aid && c.google_campaign_id == g

/-- Campaign-creation step of `_process_metrics` (step 2: create the
missing campaign for a row's external id, with that row's name). -/
def ensureCampaignRow (aid : Nat) (s : Store) (r : MetricRow) : Store :=
  match r.g_id with
  | none => s
  | some g =>
    match findCampaign s.campaigns aid g with
    | some _ => s
    | none =>
      { s with
        campaigns := s.campaigns ++ [⟨s.nextId, aid, g, r.campaign_name⟩]
        nextId := s.nextId + 1 }

/-- The freshly created `DailyMetric` of the row loop (step 4,
`if not metric`): the row's key, device and network, zero counters
(column defaults), no derived ratios yet. -/
def freshMetric (aid cid : Nat) (r : MetricRow) : DailyMetric :=
  { account_id := aid
    campaign_id := cid
    date := r.date
    device := r.device
    network := r.network
    impressions := 0
    clicks := 0
    cost_micros := 0
    conversions := 0
    conversion_value := 0
    ctr := none
    cpc := none
    cpa := none
    roas := none }

/-- Metric find-or-create of the row loop (step 4, `if not metric`). -/
def ensureMetricRow (aid : Nat) (s : Store) (r : MetricRow) : Store :=
  match r.g_id with
  | none => s
  | some g =>
    match findCampaign s.campaigns aid g with
    | none => s
    | some c =>
      if (s.metrics.find? (metricKeyMatch c.id r.date)).isSome then s
      else { s with metrics := s.metrics ++ [freshMetric aid c.id r] }

/-- Value-overwrite part of the row loop (step 4): assign the counters,
recompute derived ratios, and refresh the campaign name if changed. -/
def updateMetricRow (aid : Nat) (s : Store) (r : MetricRow) : Store :=
  match r.g_id with
  | none => s
  | some g =>
    match findCampaign s.campaigns aid g with
    | none => s
    | some c =>
      let ms := updateFirst (metricKeyMatch c.id r.date) (applyRow r) s.metrics
      let cs :=
        if c.name = r.campaign_name then s.campaigns
        else updateFirst (campaignKeyMatch aid g)
          (fun c2 => { c2 with name := r.campaign_name }) s.campaigns
      { s with metrics := ms, campaigns := cs }

/-- `SyncService._process_metrics`. The batched dict lookups of the python
(`existing_campaigns`, `existing_metrics`) are modelled by first-match
searches against the session state: the prefetch filters
(`google_campaign_id IN …`, `campaign_id IN … AND date IN …`) cover every
key the loops query, so the dicts and the session searches agree. -/
def processMetrics (aid : Nat) (rows : List MetricRow) (s : Store) : Store :=
  if rows.isEmpty then s
  else if rows.all (fun r => r.g_id.isNone) then s
  else
    let s1 := rows.foldl (ensureCampaignRow aid) s
    rows.foldl (fun t r => updateMetricRow aid (ensureMetricRow aid t r) r) s1

/-- `SyncService._get_or_create_account`: first-match lookup by external
customer id; create (fresh id, active, no last-sync) or refresh the name. -/
def getOrCreateAccount (s : Store) (customer_id name refresh_token : String)
    (userId : Nat) (isManager : Bool) : GoogleAdsAccount × Store :=
  match s.accounts.find? (fun a => a.customer_id == customer_id) with
  | none =>
    let a : GoogleAdsAccount :=
      { id := s.nextId
        user_id := userId
        customer_id := customer_id
        name := name
        refresh_token := refresh_token
        is_manager := isManager
        is_active := true
        last_sync_at := none }
    (a, { s with accounts := s.accounts ++ [a], nextId := s.nextId + 1 })
  | some a =>
    if a.name = name then (a, s)
    else
      ({ a with name := name },
       { s with
         accounts := updateFirst (fun x => x.customer_id == customer_id)
           (fun x => { x with name := name }) s.accounts })

/-- `account.last_sync_at = datetime.utcnow()` on the object found (or
created) by customer id. -/
def setLastSync (s : Store) (customer_id : String) (now : Int) : Store :=
  { s with
    accounts := updateFirst (fun a => a.customer_id == customer_id)
      (fun a => { a with last_sync_at := some now }) s.accounts }

/-- Discovered child account (`{"id": …, "name": …}`). -/
structure AccountInfo where
  id : String
  name : String
deriving DecidableEq, Repr

/-- Per-account body of the sequential processing loop of
`sync_all_accounts` (lines 99-115): upsert the account, reconcile its
fetched rows, stamp `last_sync_at`, commit. -/
def reconcileAccount (info : AccountInfo) (refresh_token : String) (userId : Nat)
    (now : Int) (rows : List MetricRow) (s : Store) : Store :=
  let p := getOrCreateAccount s info.id info.name refresh_token userId false
  let s2 := processMetrics p.1.id rows p.2
  setLastSync s2 info.id now

/-! ### `sync_all_accounts`, `sync_recent`, `backfill_history` -/

/-- The structured summary the specification promises
(`SyncSummary`: accounts attempted / succeeded / failed with reasons,
rows written per account). Modelled from the spec: no such type exists
in the source. -/
structure SyncSummary where
  attempted : Nat
  succeeded : Nat
  failed : List (String × String)
  rows_written : List (String × Nat)
deriving DecidableEq, Repr

/-- Result of one `sync_all_accounts` coroutine run: the committed store,
the exception surfaced to the caller (if the run raised), and the python
return value, which the source produces with no `return` statement. -/
structure SyncOutcome where
  store : Store
  runError : Option String
  returned : Option SyncSummary
deriving DecidableEq, Repr

/-- Sequential processing loop of `sync_all_accounts` (step 3). A fetch
failure was already caught per account (`success = False`) and the account
is skipped. `writeFault` models the storage layer raising during one
account's reconciliation/commit: nothing of that account commits, the
exception propagates, and the loop — with every remaining account —
is abandoned. -/
def processResults (refresh_token : String) (userId : Nat) (now : Int)
    (writeFault : String → Option String) :
    List (AccountInfo × Except String (List MetricRow)) → Store → SyncOutcome
  | [], s => ⟨s, none, none⟩
  | (_, .error _) :: rest, s => processResults refresh_token userId now writeFault rest s
  | (a, .ok rows) :: rest, s =>
    match writeFault a.id with
    | some e => ⟨s, some e, none⟩
    | none =>
      processResults refresh_token userId now writeFault rest
        (reconcileAccount a refresh_token userId now rows s)

/-- `SyncService.sync_all_accounts`. `discovery` is the
`_get_child_accounts` call (its failure propagates: run-fatal);
`fetch` is the per-child `fetch_daily_metrics` for the run's window,
each already wrapped in the per-account try/except of
`sync_single_account`. -/
def syncAllAccounts (discovery : Except String (List AccountInfo))
    (fetch : String → Except String (List MetricRow))
    (writeFault : String → Option String)
    (refresh_token : String) (userId : Nat) (now : Int) (s : Store) : SyncOutcome :=
  match discovery with
  | .error e => ⟨s, some e, none⟩
  | .ok children =>
    processResults refresh_token userId now writeFault
      (children.map (fun a => (a, fetch a.id))) s

/-- The window `sync_recent` computes before delegating; the manager id is
a parameter of the python method but the window derives only from the
store-wide latest date and today. -/
def syncRecentWindow (manager_id : String) (s : Store) (today : Int) : Int × Int :=
  recentWindow (storeMaxDate s) today

/-- `SyncService.sync_recent`: plan the recent window, then run
`sync_all_accounts` over it; its value is returned unchanged (the python
has no `return`, so both produce `None`). `fetch` takes the window the
remote query is issued for. -/
def syncRecent (manager_id : String) (s : Store) (today : Int)
    (discovery : Except String (List AccountInfo))
    (fetch : String → Int × Int → Except String (List MetricRow))
    (writeFault : String → Option String)
    (refresh_token : String) (userId : Nat) (now : Int) : SyncOutcome :=
  let w := syncRecentWindow manager_id s today
  syncAllAccounts discovery (fun i => fetch i w) writeFault refresh_token userId now s

/-- The backfill plan of `backfill_history`: store-wide earliest date,
no account filter; the manager id is unused for planning. -/
def backfillPlan (manager_id : String) (s : Store) (today daysPerRun : Int) :
    Option (Int × Int) :=
  backfillWindow (storeMinDate s) today daysPerRun

/-! ## Auxiliary definitions used by the lemmas below -/

/-- Apply a sequence of writes in order. -/
def applyAllW {A W : Type} (app : W → A → A) (σ : List W) (x : A) : A :=
  σ.foldl (fun y w => app w y) x

/-- One keyed write: update the first element matched by the write's
predicate. -/
def kstep {A W : Type} (wpred : W → A → Bool) (app : W → A → A) (l : List A) (w : W) : List A :=
  updateFirst (wpred w) (app w) l

/-- The campaign-name refresh of the row loop as a plain write. -/
def renameW (r : MetricRow) (c : Campaign) : Campaign := { c with name := r.campaign_name }

/-- The write predicate of the campaign-rename part of the row loop. -/
def camWPred (aid : Nat) (r : MetricRow) (c : Campaign) : Bool :=
  match r.g_id with
  | none => false
  | some g => campaignKeyMatch aid g c

/-- The write predicate of the metric-overwrite part of the row loop,
with campaign resolution pinned to the campaign list `C0`. -/
def metWPred (aid : Nat) (C0 : List Campaign) (r : MetricRow) (m : DailyMetric) : Bool :=
  match r.g_id with
  | none => false
  | some g =>
    match findCampaign C0 aid g with
    | none => false
    | some c => metricKeyMatch c.id r.date m

/-- Readiness of one row against a session: if the row's campaign
resolves, its metric row already exists. -/
def mReady (aid : Nat) (t : Store) (r : MetricRow) : Prop :=
  ∀ g c, r.g_id = some g → findCampaign t.campaigns aid g = some c →
    (t.metrics.find? (metricKeyMatch c.id r.date)).isSome = true

/-- Campaign readiness of one row: its external id resolves. -/
def camReady (aid : Nat) (t : Store) (r : MetricRow) : Prop :=
  ∀ g, r.g_id = some g → (findCampaign t.campaigns aid g).isSome = true

/-- Modelled from the spec: the derived ratios as recomputed from the
current raw counters alone, each defined only when its denominator is
positive (`ctr = clicks/impressions`, `cpc = cost/clicks`,
`cpa = cost/conversions`, `roas = conversion_value/cost`). -/
def ctrOfCounters (m : DailyMetric) : Option ℚ :=
  if 0 < m.impressions then some ((m.clicks : ℚ) / (m.impressions : ℚ)) else none

def cpcOfCounters (m : DailyMetric) : Option ℚ :=
  if 0 < m.clicks then some (m.cost / (m.clicks : ℚ)) else none

def cpaOfCounters (m : DailyMetric) : Option ℚ :=
  if 0 < m.conversions then some (m.cost / m.conversions) else none

def roasOfCounters (m : DailyMetric) : Option ℚ :=
  if 0 < m.cost then some (m.conversion_value / m.cost) else none

/-- A stored row with nonzero counters and consistent stored ratios. -/
def staleMetric : DailyMetric :=
  { account_id := 1, campaign_id := 1, date := 0, device := "MOBILE",
    network := "SEARCH", impressions := 100, clicks := 10,
    cost_micros := 5000000, conversions := 2, conversion_value := 8,
    ctr := some (1 / 10), cpc := some (1 / 2), cpa := some (5 / 2),
    roas := some (8 / 5) }

/-- A re-fetched row for the same key whose counters all dropped to 0. -/
def zeroRow : MetricRow :=
  { g_id := some "g1", campaign_name := some "Campaign", date := 0,
    device := "MOBILE", network := "SEARCH", impressions := 0, clicks := 0,
    cost_micros := 0, conversions := 0, conversion_value := 0 }

/-- A one-row store whose single metric is dated `5`. -/
def c10Store : Store :=
  { accounts := []
    campaigns := []
    metrics := [{ account_id := 1, campaign_id := 1, date := 5, device := "MOBILE",
                  network := "SEARCH", impressions := 7, clicks := 1, cost_micros := 0,
                  conversions := 0, conversion_value := 0, ctr := none, cpc := none,
                  cpa := none, roas := none }]
    nextId := 2 }

/-- Fetched rows for the same campaign and date differing only in device. -/
def rowMobile : MetricRow :=
  ⟨some "g1", some "C", 0, "MOBILE", "SEARCH", 3, 1, 0, 0, 0⟩

def rowDesktop : MetricRow :=
  ⟨some "g1", some "C", 0, "DESKTOP", "SEARCH", 5, 2, 0, 0, 0⟩

/-- Two discovered child accounts. -/
def infoA : AccountInfo := ⟨"111", "Alpha"⟩

def infoB : AccountInfo := ⟨"222", "Beta"⟩

/-- Every fetch succeeds with one row. -/
def fetchOk : String → Except String (List MetricRow) := fun _ => .ok [rowMobile]

/-- The storage layer raises while reconciling account 111. -/
def faultA : String → Option String :=
  fun i => if i == "111" then some "db write failed" else none

def noFault : String → Option String := fun _ => none

/-- Account 222's fetch fails; every other fetch succeeds. -/
def fetchBfails : String → Except String (List MetricRow) :=
  fun i => if i == "222" then .error "quota exceeded" else .ok [rowMobile]

/-! ## Window planner lemmas -/

theorem recentWindow_none (today : ℤ) : recentWindow none today = (today - 1, today) := by
  simp only [recentWindow]
  split_ifs <;> simp_all [Prod.ext_iff] <;> omega

theorem recentWindow_catchup (l today : ℤ) (h1 : 0 ≤ today - (l + 1))
    (h2 : today - (l + 1) ≤ 14) : recentWindow (some l) today = (l + 1, today) := by
  simp only [recentWindow]
  split_ifs <;> simp_all [Prod.ext_iff] <;> omega

theorem recentWindow_bigGap (l today : ℤ) (h : 14 < today - (l + 1)) :
    recentWindow (some l) today = (today - 3, today) := by
  simp only [recentWindow]
  split_ifs <;> simp_all [Prod.ext_iff] <;> omega

theorem recentWindow_current (l today : ℤ) (h : today - (l + 1) < 0) :
    recentWindow (some l) today = (today - 1, today) := by
  simp only [recentWindow]
  split_ifs <;> simp_all [Prod.ext_iff] <;> omega

/-- The empty-store branch of `sync_recent` starts at yesterday, not at
yesterday minus one: the computed window for `today = 0` is `(-1, 0)`. -/
theorem C4_window_counterexample :
    recentWindow none 0 = (-1, 0) ∧
    ((-1 : ℤ), (0 : ℤ)) ≠ ((0 : ℤ) - 2, (0 : ℤ) - 1) := by
  exact ⟨by simpa using recentWindow_none 0, by decide⟩

/-- C4 (amended): with no prior data the window is `[yesterday, today]`
(not `[yesterday-1, yesterday]`); with `gap = today - (latest+1)`,
`0 ≤ gap ≤ 14` gives `[latest+1, today]`, `gap > 14` gives
`[today-3, today]` (the cheap catch-up always ends today), and `gap < 0`
gives `[yesterday, today]`; in particular `latest = D`, `today = D+5`
gives `[D+1, D+5]`. -/
theorem C4_window_amended (l today : ℤ) :
    recentWindow none today = (today - 1, today) ∧
    (0 ≤ today - (l + 1) → today - (l + 1) ≤ 14 →
      recentWindow (some l) today = (l + 1, today)) ∧
    (14 < today - (l + 1) → recentWindow (some l) today = (today - 3, today)) ∧
    (today - (l + 1) < 0 → recentWindow (some l) today = (today - 1, today)) ∧
    recentWindow (some l) (l + 5) = (l + 1, l + 5) := by
  refine ⟨recentWindow_none today, recentWindow_catchup l today,
    recentWindow_bigGap l today, recentWindow_current l today, ?_⟩
  exact recentWindow_catchup l (l + 5) (by omega) (by omega)

/-- Concrete evaluations of the amended window cases. -/
theorem C4_window_witness :
    recentWindow (some 10) 15 = (11, 15) ∧
    recentWindow (some 10) 51 = (51 - 3, 51) ∧
    recentWindow (some 10) 10 = (10 - 1, 10) ∧
    recentWindow none 5 = (5 - 1, 5) ∧
    recentWindow (some 10) (10 + 5) = (10 + 1, 10 + 5) := by
  refine ⟨?_, ?_, ?_, ?_, ?_⟩
  · simpa using (C4_window_amended 10 15).2.1 (by norm_num) (by norm_num)
  · exact (C4_window_amended 10 51).2.2.1 (by norm_num)
  · exact (C4_window_amended 10 10).2.2.2.1 (by norm_num)
  · exact (C4_window_amended 0 5).1
  · exact (C4_window_amended 10 0).2.2.2.2

theorem backfill_iff (e today d : ℤ) :
    backfillWindow (some e) today d = none ↔ e - d < today - 730 := by
  unfold backfillWindow
  simp only [Option.getD_some]
  by_cases h : e - d < today - 730
  · rw [if_pos h]; simpa using h
  · rw [if_neg h]; simp [h]

theorem backfill_some (e today d : ℤ) (s en : ℤ) (hd : 1 ≤ d)
    (hw : backfillWindow (some e) today d = some (s, en)) :
    s = e - d ∧ en = e - 1 ∧ s < e := by
  unfold backfillWindow at hw
  simp only [Option.getD_some] at hw
  by_cases h : e - d < today - 730
  · rw [if_pos h] at hw; exact absurd hw (by simp)
  · rw [if_neg h] at hw
    simp only [Option.some.injEq, Prod.mk.injEq] at hw
    exact ⟨hw.1.symm, hw.2.symm, by omega⟩

theorem backfillIter_none (today d : ℤ) (hd : 1 ≤ d) :
    ∀ (n : ℕ) (e : ℤ), e < today - 730 + d + n →
      backfillWindow (some (backfillIter today d n e)) today d = none := by
  intro n
  induction n with
  | zero =>
    intro e he
    unfold backfillIter backfillWindow
    simp only [Option.getD_some]
    rw [if_pos (by omega)]
  | succ k ih =>
    intro e he
    show backfillWindow (some (backfillIter today d k (backfillStep today d e))) today d = none
    by_cases h : e - d < today - 730
    · have hstep : backfillStep today d e = e := by
        unfold backfillStep backfillWindow
        simp only [Option.getD_some]
        rw [if_pos (by omega)]
      rw [hstep]
      exact ih e (by omega)
    · have hstep : backfillStep today d e = e - d := by
        unfold backfillStep backfillWindow
        simp only [Option.getD_some]
        rw [if_neg (by omega)]
      rw [hstep]
      exact ih (e - d) (by push_cast; omega)

/-- C5: backfill proposes exactly the `daysPerRun`-day chunk preceding the
earliest stored date, proposes nothing exactly when that chunk starts
before the 730-day horizon, strictly moves the earliest date backwards
while it still proposes, and after finitely many rounds every further call
proposes nothing. -/
theorem C5_backfill_termination (e today d : ℤ) (hd : 1 ≤ d) :
    (backfillWindow (some e) today d = none ↔ e - d < today - 730) ∧
    (∀ s en, backfillWindow (some e) today d = some (s, en) →
      s = e - d ∧ en = e - 1 ∧ s < e) ∧
    ∃ N : ℕ, ∀ k, N ≤ k →
      backfillWindow (some (backfillIter today d k e)) today d = none := by
  refine ⟨backfill_iff e today d, fun s en hw => backfill_some e today d s en hd hw, ?_⟩
  refine ⟨(e - (today - 730 + d) + 1).toNat, fun k hk => ?_⟩
  apply backfillIter_none today d hd
  have h1 := Int.self_le_toNat (e - (today - 730 + d) + 1)
  have h2 : ((e - (today - 730 + d) + 1).toNat : ℤ) ≤ (k : ℤ) := by exact_mod_cast hk
  omega

/-- C5 instantiated at the defaults: earliest stored date `0`, today `0`,
30-day chunks. -/
theorem C5_backfill_termination_witness :
    (backfillWindow (some 0) 0 30 = none ↔ (0 : ℤ) - 30 < 0 - 730) ∧
    (∀ s en, backfillWindow (some 0) 0 30 = some (s, en) →
      s = 0 - 30 ∧ en = 0 - 1 ∧ s < 0) ∧
    ∃ N : ℕ, ∀ k, N ≤ k →
      backfillWindow (some (backfillIter 0 30 k 0)) 0 30 = none :=
  C5_backfill_termination 0 0 30 (by norm_num)

/-- C10: the recent window and the backfill plan are computed from the
store-wide extremal dates only — two invocations with different parent
(manager) account ids always get the identical window, and whenever any
metric row in the store is dated today or later, the recent window is
forced to `[yesterday, today]` no matter which parent is being synced. -/
theorem C10_window_scope (m1 m2 : String) (s : Store) (today d : ℤ) :
    syncRecentWindow m1 s today = syncRecentWindow m2 s today ∧
    backfillPlan m1 s today d = backfillPlan m2 s today d ∧
    ∀ L, storeMaxDate s = some L → today ≤ L →
      syncRecentWindow m1 s today = (today - 1, today) := by
  refine ⟨rfl, rfl, fun L hL hle => ?_⟩
  unfold syncRecentWindow
  rw [hL]
  exact recentWindow_current L today (by omega)

/-- C10 on a concrete store that is current (latest date 5 ≥ today 3):
both parents get the identical forced window `(2, 3)`. -/
theorem C10_window_scope_witness :
    syncRecentWindow "111" c10Store 3 = syncRecentWindow "222" c10Store 3 ∧
    backfillPlan "111" c10Store 3 30 = backfillPlan "222" c10Store 3 30 ∧
    syncRecentWindow "111" c10Store 3 = (3 - 1, 3) :=
  have h := C10_window_scope "111" "222" c10Store 3 30
  ⟨h.1, h.2.1, h.2.2 5 (by simp [c10Store, storeMaxDate, List.max?]) (by norm_num)⟩

/-! ## `updateFirst` and `find?` infrastructure -/

theorem updateFirst_nil (p : α → Bool) (f : α → α) : updateFirst p f [] = [] := rfl

theorem updateFirst_cons (p : α → Bool) (f : α → α) (x : α) (xs : List α) :
    updateFirst p f (x :: xs) =
      if p x then f x :: xs else x :: updateFirst p f xs := rfl

theorem length_updateFirst (p : α → Bool) (f : α → α) (l : List α) :
    (updateFirst p f l).length = l.length := by
  induction l with
  | nil => rfl
  | cons x xs ih =>
    rw [updateFirst_cons]
    split_ifs <;> simp [ih]

theorem updateFirst_of_find?_none (p : α → Bool) (f : α → α) (l : List α)
    (h : l.find? p = none) : updateFirst p f l = l := by
  induction l with
  | nil => rfl
  | cons x xs ih =>
    rw [updateFirst_cons]
    by_cases hx : p x = true
    · rw [List.find?_cons_of_pos _ hx] at h
      exact absurd h (by simp)
    · rw [List.find?_cons_of_neg _ hx] at h
      rw [if_neg hx, ih h]

theorem updateFirst_of_fix (p : α → Bool) (f : α → α) (l : List α) (a : α)
    (hfind : l.find? p = some a) (hfix : f a = a) : updateFirst p f l = l := by
  induction l with
  | nil => simp at hfind
  | cons x xs ih =>
    rw [updateFirst_cons]
    by_cases hx : p x = true
    · rw [List.find?_cons_of_pos _ hx] at hfind
      simp only [Option.some.injEq] at hfind
      rw [if_pos hx, hfind, hfix]
    · rw [List.find?_cons_of_neg _ hx] at hfind
      rw [if_neg hx, ih hfind]

/-- Observations through a projection `h` of a `find?` are unchanged by an
`updateFirst` whose update preserves the search predicate and the
projection (on elements it can be applied to). -/
theorem find?_updateFirst_map (p q : α → Bool) (f : α → α) (h : α → β) (l : List α)
    (hq : ∀ x, p x = true → q (f x) = q x)
    (hh : ∀ x, p x = true → q x = true → h (f x) = h x) :
    ((updateFirst p f l).find? q).map h = (l.find? q).map h := by
  induction l with
  | nil => rfl
  | cons x xs ih =>
    rw [updateFirst_cons]
    by_cases hp : p x = true
    · rw [if_pos hp]
      by_cases hqx : q x = true
      · rw [List.find?_cons_of_pos _ ((hq x hp).trans hqx),
          List.find?_cons_of_pos _ hqx]
        simp [hh x hp hqx]
      · rw [List.find?_cons_of_neg _ (by simp [hq x hp, hqx]),
          List.find?_cons_of_neg _ hqx]
    · rw [if_neg hp]
      by_cases hqx : q x = true
      · rw [List.find?_cons_of_pos _ hqx, List.find?_cons_of_pos _ hqx]
      · rw [List.find?_cons_of_neg _ hqx, List.find?_cons_of_neg _ hqx]
        exact ih

theorem find?_append_of_isSome (p : α → Bool) (l l2 : List α)
    (h : (l.find? p).isSome) : (l ++ l2).find? p = l.find? p := by
  induction l with
  | nil => simp at h
  | cons x xs ih =>
    rw [List.cons_append]
    by_cases hp : p x = true
    · rw [List.find?_cons_of_pos _ hp, List.find?_cons_of_pos _ hp]
    · rw [List.find?_cons_of_neg _ hp, List.find?_cons_of_neg _ hp]
      rw [List.find?_cons_of_neg _ hp] at h
      exact ih h

/-! ## `applyRow` lemmas -/

theorem cast_div_pos_iff (c : ℤ) : (0 : ℚ) < (c : ℚ) / 1000000 ↔ 0 < c := by
  rw [div_pos_iff]
  constructor
  · rintro (⟨h, -⟩ | ⟨-, h⟩)
    · exact_mod_cast h
    · norm_num at h
  · intro h
    exact Or.inl ⟨by exact_mod_cast h, by norm_num⟩

/-- Closed form of the per-row overwrite: counters come from the row
alone; each derived ratio is recomputed from the row when its guard holds
and otherwise keeps the previously stored value. -/
theorem applyRow_eq (r : MetricRow) (m : DailyMetric) :
    applyRow r m =
      { account_id := m.account_id
        campaign_id := m.campaign_id
        date := m.date
        device := m.device
        network := m.network
        impressions := r.impressions
        clicks := r.clicks
        cost_micros := r.cost_micros
        conversions := r.conversions
        conversion_value := r.conversion_value
        ctr := if 0 < r.impressions then
            some ((r.clicks : ℚ) / (r.impressions : ℚ)) else m.ctr
        cpc := if 0 < r.clicks then
            some ((r.cost_micros : ℚ) / 1000000 / (r.clicks : ℚ)) else m.cpc
        cpa := if 0 < r.conversions then
            some ((r.cost_micros : ℚ) / 1000000 / r.conversions) else m.cpa
        roas := if 0 < r.conversions ∧ 0 < r.cost_micros then
            some (r.conversion_value / ((r.cost_micros : ℚ) / 1000000)) else m.roas } := by
  simp only [applyRow, calculateDerivedMetrics, DailyMetric.cost]
  split_ifs with h1 h2 h3 h4 <;>
    simp_all [DailyMetric.mk.injEq, cast_div_pos_iff]

theorem applyRow_account_id (r : MetricRow) (m : DailyMetric) :
    (applyRow r m).account_id = m.account_id := by rw [applyRow_eq]

theorem applyRow_campaign_id (r : MetricRow) (m : DailyMetric) :
    (applyRow r m).campaign_id = m.campaign_id := by rw [applyRow_eq]

theorem applyRow_date (r : MetricRow) (m : DailyMetric) :
    (applyRow r m).date = m.date := by rw [applyRow_eq]

theorem applyRow_device (r : MetricRow) (m : DailyMetric) :
    (applyRow r m).device = m.device := by rw [applyRow_eq]

theorem applyRow_network (r : MetricRow) (m : DailyMetric) :
    (applyRow r m).network = m.network := by rw [applyRow_eq]

theorem applyRow_keyMatch (r : MetricRow) (m : DailyMetric) (cid : Nat) (d : Int) :
    metricKeyMatch cid d (applyRow r m) = metricKeyMatch cid d m := by
  unfold metricKeyMatch
  rw [applyRow_campaign_id, applyRow_date]

/-! ## C9: derived-ratio consistency -/

/-- Overwriting `staleMetric` with an all-zero fetched row leaves
`ctr = 1/10` and `roas = 8/5` stored even though recomputation from the
now-zero counters defines no ratio at all: stale ratios survive. -/
theorem C9_derived_ratios_counterexample :
    (applyRow zeroRow staleMetric).impressions = 0 ∧
    (applyRow zeroRow staleMetric).ctr = some (1 / 10) ∧
    ctrOfCounters (applyRow zeroRow staleMetric) = none ∧
    (applyRow zeroRow staleMetric).roas = some (8 / 5) ∧
    roasOfCounters (applyRow zeroRow staleMetric) = none := by
  rw [applyRow_eq]
  norm_num [ctrOfCounters, roasOfCounters, DailyMetric.cost, staleMetric, zeroRow]

/-- C9 (amended): after the overwrite, each stored ratio whose denominator
is positive equals the value recomputed from the current raw counters
(and roas additionally requires positive conversions, mirroring its
nesting under the `conversions > 0` guard); a ratio whose guard fails
keeps the previously stored value, so values computed from earlier raw
counters can survive. -/
theorem C9_derived_ratios_amended (m : DailyMetric) (r : MetricRow) :
    (applyRow r m).impressions = r.impressions ∧
    (applyRow r m).clicks = r.clicks ∧
    (applyRow r m).cost_micros = r.cost_micros ∧
    (applyRow r m).conversions = r.conversions ∧
    (applyRow r m).conversion_value = r.conversion_value ∧
    (applyRow r m).ctr =
      (if 0 < r.impressions then some ((r.clicks : ℚ) / (r.impressions : ℚ)) else m.ctr) ∧
    (applyRow r m).cpc =
      (if 0 < r.clicks then some ((r.cost_micros : ℚ) / 1000000 / (r.clicks : ℚ)) else m.cpc) ∧
    (applyRow r m).cpa =
      (if 0 < r.conversions then some ((r.cost_micros : ℚ) / 1000000 / r.conversions) else m.cpa) ∧
    (applyRow r m).roas =
      (if 0 < r.conversions ∧ 0 < r.cost_micros then
        some (r.conversion_value / ((r.cost_micros : ℚ) / 1000000)) else m.roas) := by
  rw [applyRow_eq]
  exact ⟨rfl, rfl, rfl, rfl, rfl, rfl, rfl, rfl, rfl⟩

/-! ## Anomaly engine lemmas -/

/-- Evaluating any metric name against the constant history
`[10,10,10,10,10,10,10]` with current value `15` under the defaults:
the z-score takes the zero-variance branch (encoded zero, no division),
percent change is `50`, and the raised alert is CRITICAL because
`|50| ≥ percent_critical = 50`. -/
theorem detect_const15 (name : String) (cid cname : Option String) :
    calculateZScore defaultConfig 15 [10, 10, 10, 10, 10, 10, 10] = ⟨0, 1⟩ ∧
    calculatePercentChange 15 10 = 50 ∧
    ∃ a, detectSpikes defaultConfig name 15 [10, 10, 10, 10, 10, 10, 10] cid cname = some a ∧
      a.severity = AlertSeverity.CRITICAL ∧ a.percent_change = 50 ∧ a.z_score = ⟨0, 1⟩ := by
  have hz : calculateZScore defaultConfig 15 [10, 10, 10, 10, 10, 10, 10] = ⟨0, 1⟩ := by
    norm_num [calculateZScore, pvariance, mean, lastN, defaultConfig]
  have hp : calculatePercentChange 15 (([10, 10, 10, 10, 10, 10, 10] : List ℚ).getLastD 0) = 50 := by
    norm_num [calculatePercentChange, List.getLastD]
  refine ⟨hz, by norm_num [calculatePercentChange], ?_⟩
  unfold detectSpikes
  rw [if_neg (by norm_num [defaultConfig])]
  simp only [hz, hp]
  unfold evaluateSpike
  dsimp only
  have hcrit : ((ZScore.mk 0 1).absGe defaultConfig.z_score_critical
      || decide (defaultConfig.percent_critical ≤ |(50 : ℚ)|)) = true := by
    norm_num [ZScore.absGe, defaultConfig]
  rw [if_pos hcrit]
  simp only []
  split_ifs <;> exact ⟨_, rfl, rfl, rfl, rfl⟩

/-- With history `[10,10,10,10,10,10,10]` and current `15` the detector
raises a CRITICAL alert (percent change 50 meets the `≥ 50` critical
threshold), not the WARNING the claim states. -/
theorem C6_zero_variance_counterexample :
    (detectSpikes defaultConfig "clicks" 15 [10, 10, 10, 10, 10, 10, 10] none none).map
        (fun a => a.severity) = some AlertSeverity.CRITICAL ∧
    AlertSeverity.CRITICAL ≠ AlertSeverity.WARNING := by
  obtain ⟨-, -, a, ha, hsev, -, -⟩ := detect_const15 "clicks" none none
  exact ⟨by rw [ha]; simp [hsev], by decide⟩

/-- C6 (amended): history `[10×7]`, current `15` gives the encoded-zero
z-score (no division by zero) and percent change `50`; `50` meets the
default CRITICAL percent threshold (`|pct| ≥ 50`), so the raised alert has
severity CRITICAL (it also crosses WARNING, but CRITICAL is assigned). -/
theorem C6_zero_variance_amended (name : String) (cid cname : Option String) :
    calculateZScore defaultConfig 15 [10, 10, 10, 10, 10, 10, 10] = ⟨0, 1⟩ ∧
    calculatePercentChange 15 10 = 50 ∧
    ∃ a, detectSpikes defaultConfig name 15 [10, 10, 10, 10, 10, 10, 10] cid cname = some a ∧
      a.severity = AlertSeverity.CRITICAL ∧ a.percent_change = 50 ∧ a.z_score = ⟨0, 1⟩ :=
  detect_const15 name cid cname

/-- C7: at least 7 history points, positive trailing average, and a current
value more than 50% below it force a CRITICAL volume-anomaly alert, and
batch analysis appends that alert after — and independently of — whatever
the generic per-metric loop produced on the same impressions series. -/
theorem C7_volume_anomaly (cur : ℚ) (hist : List ℚ) (ms : List (String × ℚ))
    (hs : List (String × List ℚ)) (cid cname : Option String)
    (h7 : 7 ≤ hist.length)
    (havg : 0 < mean (lastN 7 hist))
    (hdrop : cur < mean (lastN 7 hist) / 2)
    (hm : lookupStr ms "impressions" = some cur)
    (hh : lookupStr hs "impressions" = some hist) :
    ∃ a, detectVolumeAnomaly defaultConfig cur hist cid cname = some a ∧
      a.severity = AlertSeverity.CRITICAL ∧ a.alert_type = AlertType.VOLUME_ANOMALY ∧
      analyzeMetricsBatch defaultConfig ms hs cid cname =
        genericAlerts defaultConfig ms hs cid cname ++ [a] := by
  have hpct : (cur - mean (lastN 7 hist)) / mean (lastN 7 hist) * 100 < -50 := by
    rw [div_mul_eq_mul_div, div_lt_iff₀ havg]
    linarith
  have hv : ∃ a, detectVolumeAnomaly defaultConfig cur hist cid cname = some a ∧
      a.severity = AlertSeverity.CRITICAL ∧ a.alert_type = AlertType.VOLUME_ANOMALY := by
    unfold detectVolumeAnomaly
    rw [if_neg (by simp only [defaultConfig]; omega)]
    dsimp only
    have hw : defaultConfig.window_size = 7 := rfl
    rw [hw]
    rw [if_neg (ne_of_gt havg), if_pos hpct]
    exact ⟨_, rfl, rfl, rfl⟩
  obtain ⟨a, ha, hsev, htyp⟩ := hv
  refine ⟨a, ha, hsev, htyp, ?_⟩
  unfold analyzeMetricsBatch
  rw [hm, hh]
  dsimp only
  rw [ha]

/-- C7 at the spec's own example: current impressions 400 against a
trailing average of 1000 (a 60% drop). -/
theorem C7_volume_anomaly_witness :
    ∃ a, detectVolumeAnomaly defaultConfig 400
        [1000, 1000, 1000, 1000, 1000, 1000, 1000] none none = some a ∧
      a.severity = AlertSeverity.CRITICAL ∧ a.alert_type = AlertType.VOLUME_ANOMALY ∧
      analyzeMetricsBatch defaultConfig [("impressions", 400)]
          [("impressions", [1000, 1000, 1000, 1000, 1000, 1000, 1000])] none none =
        genericAlerts defaultConfig [("impressions", 400)]
          [("impressions", [1000, 1000, 1000, 1000, 1000, 1000, 1000])] none none ++ [a] :=
  C7_volume_anomaly 400 [1000, 1000, 1000, 1000, 1000, 1000, 1000]
    [("impressions", 400)] [("impressions", [1000, 1000, 1000, 1000, 1000, 1000, 1000])]
    none none (by norm_num) (by norm_num [mean, lastN]) (by norm_num [mean, lastN]) rfl rfl


/-! ## C8: reconciliation key structure -/

theorem updateMetricRow_decomp (aid : Nat) (s : Store) (r : MetricRow) (g : String)
    (c : Campaign) (hg : r.g_id = some g) (hc : findCampaign s.campaigns aid g = some c) :
    updateMetricRow aid s r =
      { s with
        metrics := updateFirst (metricKeyMatch c.id r.date) (applyRow r) s.metrics
        campaigns := if c.name = r.campaign_name then s.campaigns
          else updateFirst (campaignKeyMatch aid g)
            (fun c2 => { c2 with name := r.campaign_name }) s.campaigns } := by
  unfold updateMetricRow
  rw [hg]
  dsimp only
  rw [hc]

theorem ensureMetricRow_present (aid : Nat) (s : Store) (r : MetricRow) (g : String)
    (c : Campaign) (hg : r.g_id = some g) (hc : findCampaign s.campaigns aid g = some c)
    (hm : (s.metrics.find? (metricKeyMatch c.id r.date)).isSome) :
    ensureMetricRow aid s r = s := by
  unfold ensureMetricRow
  rw [hg]
  dsimp only
  rw [hc]
  dsimp only
  rw [if_pos hm]

theorem loopTail_pair (aid : Nat) (g : String) (r1 r2 : MetricRow)
    (st : Store) (c : Campaign) (M : DailyMetric)
    (h1 : r1.g_id = some g) (h2 : r2.g_id = some g) (hd : r2.date = r1.date)
    (hca : c.account_id = aid) (hcg : c.google_campaign_id = g)
    (hcs : st.campaigns = [c]) (hms : st.metrics = [M])
    (hmc : M.campaign_id = c.id) (hmd : M.date = r1.date) :
    ∃ c3, updateMetricRow aid
        (ensureMetricRow aid (updateMetricRow aid st r1) r2) r2 =
        { st with metrics := [applyRow r2 (applyRow r1 M)], campaigns := [c3] } ∧
      c3.account_id = aid ∧ c3.google_campaign_id = g ∧ c3.id = c.id := by
  have hfc : findCampaign st.campaigns aid g = some c := by
    rw [hcs]
    simp [findCampaign, hca, hcg]
  have hkm : metricKeyMatch c.id r1.date M = true := by
    simp [metricKeyMatch, hmc, hmd]
  -- the first update rewrites the single metric in place
  rw [updateMetricRow_decomp aid st r1 g c h1 hfc]
  have hmet1 : updateFirst (metricKeyMatch c.id r1.date) (applyRow r1) st.metrics =
      [applyRow r1 M] := by
    rw [hms, updateFirst_cons, if_pos hkm]
  -- name the campaigns list after the possible rename
  set cs1 := if c.name = r1.campaign_name then st.campaigns
    else updateFirst (campaignKeyMatch aid g)
      (fun c2 => { c2 with name := r1.campaign_name }) st.campaigns with hcs1
  obtain ⟨c2, hc2, hc2a, hc2g, hc2id⟩ :
      ∃ c2, cs1 = [c2] ∧ c2.account_id = aid ∧ c2.google_campaign_id = g ∧
        c2.id = c.id := by
    rw [hcs1, hcs]
    by_cases hn : c.name = r1.campaign_name
    · exact ⟨c, by rw [if_pos hn], hca, hcg, rfl⟩
    · refine ⟨{ c with name := r1.campaign_name }, ?_, hca, hcg, rfl⟩
      rw [if_neg hn, updateFirst_cons, if_pos (by simp [campaignKeyMatch, hca, hcg])]
  have hfc2 : findCampaign cs1 aid g = some c2 := by
    rw [hc2]
    simp [findCampaign, hc2a, hc2g]
  have hkm2 : metricKeyMatch c2.id r2.date (applyRow r1 M) = true := by
    rw [applyRow_keyMatch]
    simp [metricKeyMatch, hmc, hmd, hc2id, hd]
  have hens : ensureMetricRow aid
      { st with metrics := [applyRow r1 M], campaigns := cs1 } r2 =
      { st with metrics := [applyRow r1 M], campaigns := cs1 } := by
    apply ensureMetricRow_present aid _ r2 g c2 h2 hfc2
    simp only
    rw [List.find?_cons_of_pos _ hkm2]
    rfl
  rw [hmet1, hens]
  rw [updateMetricRow_decomp aid _ r2 g c2 h2 hfc2]
  simp only
  rw [updateFirst_cons, if_pos hkm2]
  rw [hc2]
  by_cases hn2 : c2.name = r2.campaign_name
  · refine ⟨c2, ?_, hc2a, hc2g, hc2id⟩
    rw [if_pos hn2]
  · refine ⟨{ c2 with name := r2.campaign_name }, ?_, hc2a, hc2g, hc2id⟩
    rw [if_neg hn2, updateFirst_cons,
      if_pos (by simp [campaignKeyMatch, hc2a, hc2g])]

theorem processMetrics_pair_empty (aid : Nat) (g : String) (r1 r2 : MetricRow)
    (h1 : r1.g_id = some g) (h2 : r2.g_id = some g) (hd : r2.date = r1.date) :
    ∃ c3, processMetrics aid [r1, r2] emptyStore =
        ⟨[], [c3], [applyRow r2 (applyRow r1 (freshMetric aid 0 r1))], 1⟩ ∧
      c3.account_id = aid ∧ c3.google_campaign_id = g ∧ c3.id = 0 := by
  unfold processMetrics
  rw [if_neg (by simp), if_neg (by simp [h1])]
  simp only [List.foldl]
  have hcam1 : ensureCampaignRow aid emptyStore r1 =
      (⟨[], [⟨0, aid, g, r1.campaign_name⟩], [], 1⟩ : Store) := by
    unfold ensureCampaignRow
    rw [h1]
    rfl
  have hfc : findCampaign [(⟨0, aid, g, r1.campaign_name⟩ : Campaign)] aid g =
      some ⟨0, aid, g, r1.campaign_name⟩ := by
    simp [findCampaign]
  have hcam2 : ensureCampaignRow aid
      (⟨[], [⟨0, aid, g, r1.campaign_name⟩], [], 1⟩ : Store) r2 =
      (⟨[], [⟨0, aid, g, r1.campaign_name⟩], [], 1⟩ : Store) := by
    unfold ensureCampaignRow
    rw [h2]
    dsimp only
    rw [hfc]
  have hens1 : ensureMetricRow aid
      (⟨[], [⟨0, aid, g, r1.campaign_name⟩], [], 1⟩ : Store) r1 =
      (⟨[], [⟨0, aid, g, r1.campaign_name⟩], [freshMetric aid 0 r1], 1⟩ : Store) := by
    unfold ensureMetricRow
    rw [h1]
    dsimp only
    rw [hfc]
    rfl
  rw [hcam1, hcam2, hens1]
  obtain ⟨c3, heq, ha, hg2, hid⟩ := loopTail_pair aid g r1 r2
    (⟨[], [⟨0, aid, g, r1.campaign_name⟩], [freshMetric aid 0 r1], 1⟩ : Store)
    ⟨0, aid, g, r1.campaign_name⟩ (freshMetric aid 0 r1)
    h1 h2 hd rfl rfl rfl rfl rfl rfl
  exact ⟨c3, heq, ha, hg2, hid⟩

theorem processMetrics_pair_present (aid n : Nat) (A : List GoogleAdsAccount)
    (g : String) (r1 r2 : MetricRow) (c : Campaign) (M : DailyMetric)
    (h1 : r1.g_id = some g) (h2 : r2.g_id = some g) (hd : r2.date = r1.date)
    (hca : c.account_id = aid) (hcg : c.google_campaign_id = g)
    (hmc : M.campaign_id = c.id) (hmd : M.date = r1.date) :
    ∃ c3, processMetrics aid [r1, r2] ⟨A, [c], [M], n⟩ =
        ⟨A, [c3], [applyRow r2 (applyRow r1 M)], n⟩ ∧
      c3.account_id = aid ∧ c3.google_campaign_id = g ∧ c3.id = c.id := by
  unfold processMetrics
  rw [if_neg (by simp), if_neg (by simp [h1])]
  simp only [List.foldl]
  have hfc : findCampaign [c] aid g = some c := by
    simp [findCampaign, hca, hcg]
  have hcam1 : ensureCampaignRow aid (⟨A, [c], [M], n⟩ : Store) r1 =
      (⟨A, [c], [M], n⟩ : Store) := by
    unfold ensureCampaignRow
    rw [h1]
    dsimp only
    rw [hfc]
  have hcam2 : ensureCampaignRow aid (⟨A, [c], [M], n⟩ : Store) r2 =
      (⟨A, [c], [M], n⟩ : Store) := by
    unfold ensureCampaignRow
    rw [h2]
    dsimp only
    rw [hfc]
  have hens1 : ensureMetricRow aid (⟨A, [c], [M], n⟩ : Store) r1 =
      (⟨A, [c], [M], n⟩ : Store) := by
    apply ensureMetricRow_present aid _ r1 g c h1 hfc
    simp only
    rw [List.find?_cons_of_pos _ (by simp [metricKeyMatch, hmc, hmd])]
    rfl
  rw [hcam1, hcam2, hens1]
  obtain ⟨c3, heq, ha, hg2, hid⟩ := loopTail_pair aid g r1 r2
    (⟨A, [c], [M], n⟩ : Store) c M h1 h2 hd hca hcg rfl rfl hmc hmd
  exact ⟨c3, heq, ha, hg2, hid⟩

/-- Two fetched rows for the same campaign and date that differ in device
are reconciled into one single `DailyMetric` row, not the two distinct rows
the claim requires: the lookup key is `(campaign_id, date)` only. -/
theorem C8_metric_key_counterexample :
    (processMetrics 7 [rowMobile, rowDesktop] emptyStore).metrics.length = 1 ∧
    (1 : Nat) ≠ 2 := by
  obtain ⟨c3, heq, -, -, -⟩ :=
    processMetrics_pair_empty 7 "g1" rowMobile rowDesktop rfl rfl rfl
  rw [heq]
  exact ⟨rfl, by decide⟩

/-- C8 (amended): reconciliation treats `(campaign, date)` alone as the
row key — device and network are not part of it. Two fetched rows for the
same campaign and date that differ in device or network collapse into one
stored row carrying the first row's device/network and the last row's
counters, and re-fetching the already-covered window updates that row in
place, never creating a duplicate for a key already present. -/
theorem C8_metric_key_amended (aid : Nat) (g : String) (r1 r2 : MetricRow)
    (h1 : r1.g_id = some g) (h2 : r2.g_id = some g) (hd : r2.date = r1.date) :
    ((processMetrics aid [r1, r2] emptyStore).metrics.length = 1 ∧
      ∃ m, (processMetrics aid [r1, r2] emptyStore).metrics = [m] ∧
        m.device = r1.device ∧ m.network = r1.network ∧ m.date = r1.date ∧
        m.impressions = r2.impressions ∧ m.clicks = r2.clicks ∧
        m.cost_micros = r2.cost_micros ∧ m.conversions = r2.conversions ∧
        m.conversion_value = r2.conversion_value) ∧
    (processMetrics aid [r1, r2]
      (processMetrics aid [r1, r2] emptyStore)).metrics.length = 1 := by
  obtain ⟨c3, heq, ha, hg2, hid⟩ := processMetrics_pair_empty aid g r1 r2 h1 h2 hd
  refine ⟨⟨by rw [heq]; rfl, ?_⟩, ?_⟩
  · refine ⟨_, by rw [heq], ?_, ?_, ?_, ?_, ?_, ?_, ?_, ?_⟩
    · rw [applyRow_device, applyRow_device]
      rfl
    · rw [applyRow_network, applyRow_network]
      rfl
    · rw [applyRow_date, applyRow_date]
      rfl
    · rw [applyRow_eq]
    · rw [applyRow_eq]
    · rw [applyRow_eq]
    · rw [applyRow_eq]
    · rw [applyRow_eq]
  · have hkc : (applyRow r2 (applyRow r1 (freshMetric aid 0 r1))).campaign_id = c3.id := by
      rw [applyRow_campaign_id, applyRow_campaign_id, hid]
      rfl
    have hkd : (applyRow r2 (applyRow r1 (freshMetric aid 0 r1))).date = r1.date := by
      rw [applyRow_date, applyRow_date]
      rfl
    rw [heq]
    obtain ⟨c4, heq2, -, -, -⟩ := processMetrics_pair_present aid 1 [] g r1 r2 c3
      (applyRow r2 (applyRow r1 (freshMetric aid 0 r1))) h1 h2 hd ha hg2 hkc hkd
    rw [heq2]
    rfl

/-- C8 amended, instantiated at the two concrete device-differing rows. -/
theorem C8_metric_key_witness :
    ((processMetrics 7 [rowMobile, rowDesktop] emptyStore).metrics.length = 1 ∧
      ∃ m, (processMetrics 7 [rowMobile, rowDesktop] emptyStore).metrics = [m] ∧
        m.device = rowMobile.device ∧ m.network = rowMobile.network ∧
        m.date = rowMobile.date ∧
        m.impressions = rowDesktop.impressions ∧ m.clicks = rowDesktop.clicks ∧
        m.cost_micros = rowDesktop.cost_micros ∧
        m.conversions = rowDesktop.conversions ∧
        m.conversion_value = rowDesktop.conversion_value) ∧
    (processMetrics 7 [rowMobile, rowDesktop]
      (processMetrics 7 [rowMobile, rowDesktop] emptyStore)).metrics.length = 1 :=
  C8_metric_key_amended 7 "g1" rowMobile rowDesktop rfl rfl rfl

/-! ## C2, C3: batch behaviour of `sync_all_accounts` -/

theorem processResults_returned (rt : String) (uid : Nat) (now : Int)
    (wf : String → Option String) :
    ∀ (rs : List (AccountInfo × Except String (List MetricRow))) (s : Store),
      (processResults rt uid now wf rs s).returned = none := by
  intro rs
  induction rs with
  | nil => intro s; rfl
  | cons p rest ih =>
    intro s
    obtain ⟨a, res⟩ := p
    cases res with
    | error e => exact ih s
    | ok rows =>
      show (match wf a.id with
        | some e => (⟨s, some e, none⟩ : SyncOutcome)
        | none => processResults rt uid now wf rest
            (reconcileAccount a rt uid now rows s)).returned = none
      cases wf a.id with
      | some e => rfl
      | none => exact ih _

theorem processResults_no_fault (rt : String) (uid : Nat) (now : Int)
    (wf : String → Option String) (hwf : ∀ i, wf i = none) :
    ∀ (rs : List (AccountInfo × Except String (List MetricRow))) (s : Store),
      (processResults rt uid now wf rs s).runError = none := by
  intro rs
  induction rs with
  | nil => intro s; rfl
  | cons p rest ih =>
    intro s
    obtain ⟨a, res⟩ := p
    cases res with
    | error e => exact ih s
    | ok rows =>
      show (match wf a.id with
        | some e => (⟨s, some e, none⟩ : SyncOutcome)
        | none => processResults rt uid now wf rest
            (reconcileAccount a rt uid now rows s)).runError = none
      rw [hwf a.id]
      exact ih _

/-- An account whose fetch failed is skipped: the run behaves exactly as
if that account had not been discovered at all. -/
theorem processResults_skip_failed (rt : String) (uid : Nat) (now : Int)
    (wf : String → Option String) (fetch : String → Except String (List MetricRow))
    (b : AccountInfo) (msg : String) (hb : fetch b.id = .error msg) :
    ∀ (pre post : List AccountInfo) (s : Store),
      processResults rt uid now wf ((pre ++ b :: post).map (fun a => (a, fetch a.id))) s =
      processResults rt uid now wf ((pre ++ post).map (fun a => (a, fetch a.id))) s := by
  intro pre
  induction pre with
  | nil =>
    intro post s
    rw [List.nil_append, List.nil_append, List.map_cons, hb]
    rfl
  | cons x xs ih =>
    intro post s
    rw [List.cons_append, List.cons_append, List.map_cons, List.map_cons]
    cases hx : fetch x.id with
    | error e =>
      show processResults rt uid now wf _ s = processResults rt uid now wf _ s
      unfold processResults
      exact ih post s
    | ok rows =>
      unfold processResults
      cases wf x.id with
      | some e => rfl
      | none => exact ih post _

/-- A storage fault while reconciling account `b` aborts the whole loop:
the committed state is exactly what the prefix before `b` committed, `b`
itself commits nothing, and the accounts after `b` are never processed. -/
theorem processResults_fault_abort (rt : String) (uid : Nat) (now : Int)
    (wf : String → Option String) (fetch : String → Except String (List MetricRow))
    (b : AccountInfo) (msg : String) (rows : List MetricRow)
    (hbf : fetch b.id = .ok rows) (hbw : wf b.id = some msg) :
    ∀ (pre : List AccountInfo) (post : List AccountInfo) (s : Store),
      (∀ x ∈ pre, wf x.id = none) →
      processResults rt uid now wf ((pre ++ b :: post).map (fun a => (a, fetch a.id))) s =
      ⟨(processResults rt uid now wf (pre.map (fun a => (a, fetch a.id))) s).store,
        some msg, none⟩ := by
  intro pre
  induction pre with
  | nil =>
    intro post s hpre
    rw [List.nil_append, List.map_cons, hbf]
    show (match wf b.id with
      | some e => (⟨s, some e, none⟩ : SyncOutcome)
      | none => processResults rt uid now wf _ (reconcileAccount b rt uid now rows s)) = _
    rw [hbw]
    rfl
  | cons x xs ih =>
    intro post s hpre
    rw [List.cons_append, List.map_cons, List.map_cons]
    cases hx : fetch x.id with
    | error e =>
      show processResults rt uid now wf _ s = _
      unfold processResults
      exact ih post s (fun y hy => hpre y (List.mem_cons_of_mem x hy))
    | ok rws =>
      unfold processResults
      rw [hpre x (List.mem_cons_self x xs)]
      exact ih post _ (fun y hy => hpre y (List.mem_cons_of_mem x hy))

/-- Both child fetches succeed, but a storage fault while reconciling the
first account aborts the run before the second account is processed: the
committed store is untouched (no metric of account 222 was written even
though its fetch succeeded) and the exception surfaces — refuting that a
reconciliation failure of one account leaves every other account
reconciled and committed. -/
theorem C2_partial_failure_counterexample :
    syncAllAccounts (.ok [infoA, infoB]) fetchOk faultA "tok" 1 0 emptyStore =
      ⟨emptyStore, some "db write failed", none⟩ ∧
    (syncAllAccounts (.ok [infoA, infoB]) fetchOk faultA "tok" 1 0
      emptyStore).store.metrics = [] := by
  constructor
  · rfl
  · rfl

/-- C2 (amended): discovery failure is run-fatal with an untouched store;
a FETCH failure of one account is fully isolated (the run equals the run
without that account, and a fault-free run surfaces no error); but a
failure while RECONCILING one account aborts the batch: accounts committed
before it persist, the failing account commits nothing, the accounts after
it are never reconciled, and the error surfaces to the caller. -/
theorem C2_partial_failure_amended (e msg rt : String) (uid : Nat) (now : Int)
    (s : Store) (fetch : String → Except String (List MetricRow))
    (wf : String → Option String)
    (pre post accs : List AccountInfo) (b : AccountInfo) :
    syncAllAccounts (.error e) fetch wf rt uid now s = ⟨s, some e, none⟩ ∧
    (fetch b.id = .error msg →
      syncAllAccounts (.ok (pre ++ b :: post)) fetch wf rt uid now s =
        syncAllAccounts (.ok (pre ++ post)) fetch wf rt uid now s) ∧
    (∀ rows, fetch b.id = .ok rows → wf b.id = some msg →
      (∀ x ∈ pre, wf x.id = none) →
      syncAllAccounts (.ok (pre ++ b :: post)) fetch wf rt uid now s =
        ⟨(syncAllAccounts (.ok pre) fetch wf rt uid now s).store, some msg, none⟩) ∧
    ((∀ i, wf i = none) →
      (syncAllAccounts (.ok accs) fetch wf rt uid now s).runError = none) := by
  refine ⟨rfl, fun hb => ?_, fun rows hbf hbw hpre => ?_, fun hwf => ?_⟩
  · exact processResults_skip_failed rt uid now wf fetch b msg hb pre post s
  · exact processResults_fault_abort rt uid now wf fetch b msg rows hbf hbw pre post s hpre
  · exact processResults_no_fault rt uid now wf hwf _ s

/-- C2 amended at concrete runs: a discovery failure, an isolated fetch
failure of account 222, a reconcile fault on account 111 aborting before
account 222, and a fault-free run with no surfaced error. -/
theorem C2_partial_failure_witness :
    syncAllAccounts (.error "discovery down") fetchOk noFault "tok" 1 0 emptyStore =
      ⟨emptyStore, some "discovery down", none⟩ ∧
    syncAllAccounts (.ok ([infoA] ++ infoB :: [])) fetchBfails noFault "tok" 1 0 emptyStore =
      syncAllAccounts (.ok ([infoA] ++ [])) fetchBfails noFault "tok" 1 0 emptyStore ∧
    syncAllAccounts (.ok ([] ++ infoA :: [infoB])) fetchOk faultA "tok" 1 0 emptyStore =
      ⟨(syncAllAccounts (.ok []) fetchOk faultA "tok" 1 0 emptyStore).store,
        some "db write failed", none⟩ ∧
    (syncAllAccounts (.ok [infoA, infoB]) fetchOk noFault "tok" 1 0
      emptyStore).runError = none :=
  ⟨(C2_partial_failure_amended "discovery down" "x" "tok" 1 0 emptyStore fetchOk
      noFault [] [] [] infoA).1,
   (C2_partial_failure_amended "x" "quota exceeded" "tok" 1 0 emptyStore fetchBfails
      noFault [infoA] [] [] infoB).2.1 rfl,
   (C2_partial_failure_amended "x" "db write failed" "tok" 1 0 emptyStore fetchOk
      faultA [] [infoB] [] infoA).2.2.1 [rowMobile] rfl rfl
      (fun x hx => absurd hx (List.not_mem_nil x)),
   (C2_partial_failure_amended "x" "x" "tok" 1 0 emptyStore fetchOk
      noFault [] [] [infoA, infoB] infoA).2.2.2 (fun i => rfl)⟩

/-- A concrete run (one account succeeds, one fetch fails) still returns
`None`: the python functions end without a `return` statement, so no
structured summary of attempts/successes/failures is ever produced. -/
theorem C3_summary_counterexample :
    (syncAllAccounts (.ok [infoA, infoB]) fetchBfails noFault "tok" 1 0
      emptyStore).returned = none ∧
    (syncRecent "mgr" emptyStore 0 (.ok [infoA, infoB]) (fun i w => fetchBfails i)
      noFault "tok" 1 0).returned = none := by
  constructor
  · exact processResults_returned "tok" 1 0 noFault _ emptyStore
  · exact processResults_returned "tok" 1 0 noFault _ emptyStore

/-- C3 (amended): every invocation of `sync_all_accounts` and of
`sync_recent` returns `None` — the return value is the same for every run
and carries no summary of accounts attempted, succeeded or failed. -/
theorem C3_summary_amended (d : Except String (List AccountInfo))
    (fetch : String → Except String (List MetricRow))
    (fetch2 : String → Int × Int → Except String (List MetricRow))
    (wf : String → Option String) (rt m : String) (uid : Nat) (now today : Int)
    (s : Store) :
    (syncAllAccounts d fetch wf rt uid now s).returned = none ∧
    (syncRecent m s today d fetch2 wf rt uid now).returned = none := by
  constructor
  · unfold syncAllAccounts
    cases d with
    | error e => rfl
    | ok children => exact processResults_returned rt uid now wf _ s
  · unfold syncRecent syncAllAccounts
    cases d with
    | error e => rfl
    | ok children => exact processResults_returned rt uid now wf _ s


/-! ## C1: idempotence of reconciliation -/


section KeyedFold

variable {A W B : Type}

theorem applyAllW_nil (app : W → A → A) (x : A) : applyAllW app [] x = x := rfl

theorem applyAllW_cons (app : W → A → A) (w : W) (σ : List W) (x : A) :
    applyAllW app (w :: σ) x = applyAllW app σ (app w x) := rfl

/-- Every field of a fold of writes is the value of the last write to that
field, or the initial value when no write touches it. -/
theorem foldl_lastWrite (app : W → A → A) (proj : A → B) (wval : W → Option B)
    (hcompat : ∀ w a, proj (app w a) = (wval w).getD (proj a)) :
    ∀ (σ : List W) (x : A),
      proj (applyAllW app σ x) = ((σ.filterMap wval).getLast?).getD (proj x) := by
  intro σ
  induction σ with
  | nil => intro x; rfl
  | cons w σ2 ih =>
    intro x
    rw [applyAllW_cons, ih, hcompat, List.filterMap_cons]
    cases hw : wval w with
    | none => rfl
    | some v =>
      cases hfm : σ2.filterMap wval with
      | nil => simp
      | cons b t =>
        have hs : (b :: t).getLast?.isSome := by
          rw [List.getLast?_isSome]
          simp
        cases hgl : (b :: t).getLast? with
        | none => rw [hgl] at hs; simp at hs
        | some u => simp [hgl]

theorem foldl_kstep_nil (wpred : W → A → Bool) (app : W → A → A) (ws : List W) :
    ws.foldl (kstep wpred app) [] = [] := by
  induction ws with
  | nil => rfl
  | cons w ws2 ih => exact ih

/-- Splitting a keyed fold over a cons cell: the head receives, in order,
exactly the writes whose predicate matches it; every other write passes to
the tail. Requires write predicates to be stable under applied writes. -/
theorem foldl_kstep_cons (wpred : W → A → Bool) (app : W → A → A)
    (hp : ∀ w w2 x, wpred w2 (app w x) = wpred w2 x) :
    ∀ (ws : List W) (x : A) (xs : List A),
      ws.foldl (kstep wpred app) (x :: xs) =
        applyAllW app (ws.filter (fun w => wpred w x)) x ::
          (ws.filter (fun w => !(wpred w x))).foldl (kstep wpred app) xs := by
  intro ws
  induction ws with
  | nil => intro x xs; rfl
  | cons w ws2 ih =>
    intro x xs
    rw [List.foldl_cons, List.filter_cons, List.filter_cons]
    show ws2.foldl (kstep wpred app) (updateFirst (wpred w) (app w) (x :: xs)) = _
    rw [updateFirst_cons]
    by_cases hw : wpred w x = true
    · rw [if_pos hw, if_pos hw, if_neg (by simp [hw])]
      rw [ih (app w x) xs]
      have hfilters : ∀ w2, wpred w2 (app w x) = wpred w2 x := fun w2 => hp w w2 x
      simp only [hfilters]
      rw [applyAllW_cons]
    · rw [if_neg hw, if_neg hw, if_pos (by simp [hw])]
      rw [ih x (updateFirst (wpred w) (app w) xs)]
      rfl

/-- Keyed last-writer-wins folds absorb a complete replay: folding the
same write list twice equals folding it once, provided each element-level
write chain is idempotent. -/
theorem foldl_kstep_replay (wpred : W → A → Bool) (app : W → A → A)
    (hp : ∀ w w2 x, wpred w2 (app w x) = wpred w2 x)
    (hchain : ∀ (σ : List W) (x : A), applyAllW app σ (applyAllW app σ x) = applyAllW app σ x) :
    ∀ (l : List A) (ws : List W),
      ws.foldl (kstep wpred app) (ws.foldl (kstep wpred app) l) =
        ws.foldl (kstep wpred app) l := by
  intro l
  induction l with
  | nil => intro ws; simp only [foldl_kstep_nil]
  | cons x xs ih =>
    intro ws
    rw [foldl_kstep_cons wpred app hp ws x xs]
    rw [foldl_kstep_cons wpred app hp ws]
    have hstable : ∀ σ w2, wpred w2 (applyAllW app σ x) = wpred w2 x := by
      intro σ
      induction σ generalizing x with
      | nil => intro w2; rfl
      | cons w σ2 ih2 =>
        intro w2
        rw [applyAllW_cons, ih2 (app w x), hp]
    simp only [hstable]
    rw [hchain, ih]

end KeyedFold


theorem lastWrite_idem {A W B : Type} (app : W → A → A) (proj : A → B)
    (wval : W → Option B)
    (hcompat : ∀ w a, proj (app w a) = (wval w).getD (proj a)) (σ : List W) (x : A) :
    proj (applyAllW app σ (applyAllW app σ x)) = proj (applyAllW app σ x) := by
  rw [foldl_lastWrite app proj wval hcompat σ, foldl_lastWrite app proj wval hcompat σ]
  cases h : (σ.filterMap wval).getLast? with
  | none => simp
  | some v => simp

theorem metricFieldsExt (a b : DailyMetric)
    (h1 : a.account_id = b.account_id) (h2 : a.campaign_id = b.campaign_id)
    (h3 : a.date = b.date) (h4 : a.device = b.device) (h5 : a.network = b.network)
    (h6 : a.impressions = b.impressions) (h7 : a.clicks = b.clicks)
    (h8 : a.cost_micros = b.cost_micros) (h9 : a.conversions = b.conversions)
    (h10 : a.conversion_value = b.conversion_value) (h11 : a.ctr = b.ctr)
    (h12 : a.cpc = b.cpc) (h13 : a.cpa = b.cpa) (h14 : a.roas = b.roas) : a = b := by
  cases a
  cases b
  simp_all

theorem campaignFieldsExt (a b : Campaign) (h1 : a.id = b.id)
    (h2 : a.account_id = b.account_id)
    (h3 : a.google_campaign_id = b.google_campaign_id) (h4 : a.name = b.name) :
    a = b := by
  cases a
  cases b
  simp_all

theorem storeFieldsExt (a b : Store) (h1 : a.accounts = b.accounts)
    (h2 : a.campaigns = b.campaigns) (h3 : a.metrics = b.metrics)
    (h4 : a.nextId = b.nextId) : a = b := by
  cases a
  cases b
  simp_all

/-- Replaying any sequence of row overwrites on its own result is the
identity: counters take the last row's values, and each conditional
ratio write resolves to the last row whose guard held. -/
theorem applyRow_chain_idem (σ : List MetricRow) (x : DailyMetric) :
    applyAllW applyRow σ (applyAllW applyRow σ x) = applyAllW applyRow σ x := by
  apply metricFieldsExt
  · exact lastWrite_idem applyRow (fun m => m.account_id) (fun w => none)
      (fun w a => applyRow_account_id w a) σ x
  · exact lastWrite_idem applyRow (fun m => m.campaign_id) (fun w => none)
      (fun w a => applyRow_campaign_id w a) σ x
  · exact lastWrite_idem applyRow (fun m => m.date) (fun w => none)
      (fun w a => applyRow_date w a) σ x
  · exact lastWrite_idem applyRow (fun m => m.device) (fun w => none)
      (fun w a => applyRow_device w a) σ x
  · exact lastWrite_idem applyRow (fun m => m.network) (fun w => none)
      (fun w a => applyRow_network w a) σ x
  · exact lastWrite_idem applyRow (fun m => m.impressions) (fun w => some w.impressions)
      (fun w a => by rw [applyRow_eq]; rfl) σ x
  · exact lastWrite_idem applyRow (fun m => m.clicks) (fun w => some w.clicks)
      (fun w a => by rw [applyRow_eq]; rfl) σ x
  · exact lastWrite_idem applyRow (fun m => m.cost_micros) (fun w => some w.cost_micros)
      (fun w a => by rw [applyRow_eq]; rfl) σ x
  · exact lastWrite_idem applyRow (fun m => m.conversions) (fun w => some w.conversions)
      (fun w a => by rw [applyRow_eq]; rfl) σ x
  · exact lastWrite_idem applyRow (fun m => m.conversion_value)
      (fun w => some w.conversion_value) (fun w a => by rw [applyRow_eq]; rfl) σ x
  · exact lastWrite_idem applyRow (fun m => m.ctr)
      (fun w => if 0 < w.impressions then
        some (some ((w.clicks : ℚ) / (w.impressions : ℚ))) else none)
      (fun w a => by rw [applyRow_eq]; dsimp only; split_ifs <;> rfl) σ x
  · exact lastWrite_idem applyRow (fun m => m.cpc)
      (fun w => if 0 < w.clicks then
        some (some ((w.cost_micros : ℚ) / 1000000 / (w.clicks : ℚ))) else none)
      (fun w a => by rw [applyRow_eq]; dsimp only; split_ifs <;> rfl) σ x
  · exact lastWrite_idem applyRow (fun m => m.cpa)
      (fun w => if 0 < w.conversions then
        some (some ((w.cost_micros : ℚ) / 1000000 / w.conversions)) else none)
      (fun w a => by rw [applyRow_eq]; dsimp only; split_ifs <;> rfl) σ x
  · exact lastWrite_idem applyRow (fun m => m.roas)
      (fun w => if 0 < w.conversions ∧ 0 < w.cost_micros then
        some (some (w.conversion_value / ((w.cost_micros : ℚ) / 1000000))) else none)
      (fun w a => by rw [applyRow_eq]; dsimp only; split_ifs <;> rfl) σ x

theorem renameW_chain_idem (σ : List MetricRow) (x : Campaign) :
    applyAllW renameW σ (applyAllW renameW σ x) = applyAllW renameW σ x := by
  apply campaignFieldsExt
  · exact lastWrite_idem renameW (fun c => c.id) (fun w => none) (fun w a => rfl) σ x
  · exact lastWrite_idem renameW (fun c => c.account_id) (fun w => none)
      (fun w a => rfl) σ x
  · exact lastWrite_idem renameW (fun c => c.google_campaign_id) (fun w => none)
      (fun w a => rfl) σ x
  · exact lastWrite_idem renameW (fun c => c.name) (fun w => some w.campaign_name)
      (fun w a => rfl) σ x

theorem campaignKeyMatch_renameW (aid2 : Nat) (g2 : String) (r : MetricRow) (c : Campaign) :
    campaignKeyMatch aid2 g2 (renameW r c) = campaignKeyMatch aid2 g2 c := rfl

theorem camWPred_renameW (aid : Nat) (r r2 : MetricRow) (c : Campaign) :
    camWPred aid r2 (renameW r c) = camWPred aid r2 c := by
  unfold camWPred
  cases r2.g_id with
  | none => rfl
  | some g => exact campaignKeyMatch_renameW aid g r c

theorem metWPred_applyRow (aid : Nat) (C0 : List Campaign) (r r2 : MetricRow)
    (m : DailyMetric) : metWPred aid C0 r2 (applyRow r m) = metWPred aid C0 r2 m := by
  unfold metWPred
  cases r2.g_id with
  | none => rfl
  | some g =>
    dsimp only
    cases findCampaign C0 aid g with
    | none => rfl
    | some c => exact applyRow_keyMatch r m c.id r2.date


theorem findCampaign_eq (cs : List Campaign) (aid : Nat) (g : String) :
    findCampaign cs aid g = cs.find? (campaignKeyMatch aid g) := rfl

theorem ensureCampaignRow_metrics (aid : Nat) (s : Store) (r : MetricRow) :
    (ensureCampaignRow aid s r).metrics = s.metrics := by
  unfold ensureCampaignRow
  cases r.g_id with
  | none => rfl
  | some g =>
    dsimp only
    cases findCampaign s.campaigns aid g with
    | none => rfl
    | some c => rfl

theorem ensureCampaignRow_accounts (aid : Nat) (s : Store) (r : MetricRow) :
    (ensureCampaignRow aid s r).accounts = s.accounts := by
  unfold ensureCampaignRow
  cases r.g_id with
  | none => rfl
  | some g =>
    dsimp only
    cases findCampaign s.campaigns aid g with
    | none => rfl
    | some c => rfl

theorem ensureMetricRow_campaigns (aid : Nat) (s : Store) (r : MetricRow) :
    (ensureMetricRow aid s r).campaigns = s.campaigns := by
  unfold ensureMetricRow
  cases r.g_id with
  | none => rfl
  | some g =>
    dsimp only
    cases findCampaign s.campaigns aid g with
    | none => rfl
    | some c =>
      dsimp only
      split_ifs <;> rfl

theorem ensureMetricRow_accounts (aid : Nat) (s : Store) (r : MetricRow) :
    (ensureMetricRow aid s r).accounts = s.accounts := by
  unfold ensureMetricRow
  cases r.g_id with
  | none => rfl
  | some g =>
    dsimp only
    cases findCampaign s.campaigns aid g with
    | none => rfl
    | some c =>
      dsimp only
      split_ifs <;> rfl

theorem ensureMetricRow_nextId (aid : Nat) (s : Store) (r : MetricRow) :
    (ensureMetricRow aid s r).nextId = s.nextId := by
  unfold ensureMetricRow
  cases r.g_id with
  | none => rfl
  | some g =>
    dsimp only
    cases findCampaign s.campaigns aid g with
    | none => rfl
    | some c =>
      dsimp only
      split_ifs <;> rfl

theorem updateMetricRow_accounts (aid : Nat) (s : Store) (r : MetricRow) :
    (updateMetricRow aid s r).accounts = s.accounts := by
  unfold updateMetricRow
  cases r.g_id with
  | none => rfl
  | some g =>
    dsimp only
    cases findCampaign s.campaigns aid g with
    | none => rfl
    | some c => rfl

theorem updateMetricRow_nextId (aid : Nat) (s : Store) (r : MetricRow) :
    (updateMetricRow aid s r).nextId = s.nextId := by
  unfold updateMetricRow
  cases r.g_id with
  | none => rfl
  | some g =>
    dsimp only
    cases findCampaign s.campaigns aid g with
    | none => rfl
    | some c => rfl

/-- The campaign-name part of one row-loop update is exactly one keyed
rename write (skipped rows and unresolved campaigns write nothing, a
matched campaign receives the row's name — also when the names already
agree, where the write is the identity). -/
theorem updateMetricRow_campaigns_eq (aid : Nat) (t : Store) (r : MetricRow) :
    (updateMetricRow aid t r).campaigns = kstep (camWPred aid) renameW t.campaigns r := by
  unfold updateMetricRow kstep
  cases hg : r.g_id with
  | none =>
    dsimp only
    have hpred : camWPred aid r = fun c => false :=
      funext fun c => by unfold camWPred; rw [hg]
    rw [hpred, updateFirst_of_find?_none _ _ _
      (List.find?_eq_none.mpr (fun x hx => by simp))]
  | some g =>
    dsimp only
    have hpred : camWPred aid r = campaignKeyMatch aid g :=
      funext fun c => by unfold camWPred; rw [hg]
    rw [hpred]
    cases hfc : findCampaign t.campaigns aid g with
    | none =>
      dsimp only
      rw [updateFirst_of_find?_none _ _ _ (findCampaign_eq t.campaigns aid g ▸ hfc)]
    | some c =>
      dsimp only
      by_cases hn : c.name = r.campaign_name
      · rw [if_pos hn, updateFirst_of_fix _ _ _ c
          (findCampaign_eq t.campaigns aid g ▸ hfc)
          (campaignFieldsExt _ _ rfl rfl rfl hn.symm)]
      · rw [if_neg hn]
        rfl

/-- The metric part of one row-loop update is exactly one keyed overwrite
against any campaign list `C0` that resolves external ids to the same
campaign keys as the current session. -/
theorem updateMetricRow_metrics_eq (aid : Nat) (C0 : List Campaign) (t : Store)
    (r : MetricRow)
    (hres : ∀ g, (findCampaign t.campaigns aid g).map (fun c => c.id) =
      (findCampaign C0 aid g).map (fun c => c.id)) :
    (updateMetricRow aid t r).metrics = kstep (metWPred aid C0) applyRow t.metrics r := by
  unfold updateMetricRow kstep
  cases hg : r.g_id with
  | none =>
    dsimp only
    have hpred : metWPred aid C0 r = fun m => false :=
      funext fun m => by unfold metWPred; rw [hg]
    rw [hpred, updateFirst_of_find?_none _ _ _
      (List.find?_eq_none.mpr (fun x hx => by simp))]
  | some g =>
    dsimp only
    have hpred0 : metWPred aid C0 r = fun m =>
        match findCampaign C0 aid g with
        | none => false
        | some c => metricKeyMatch c.id r.date m :=
      funext fun m => by unfold metWPred; rw [hg]
    cases hfc : findCampaign t.campaigns aid g with
    | none =>
      dsimp only
      have h0 : findCampaign C0 aid g = none := by
        have h := hres g
        rw [hfc] at h
        exact (Option.map_eq_none.mp h.symm)
      have hpred : metWPred aid C0 r = fun m => false := funext fun m => by
        unfold metWPred
        rw [hg]
        dsimp only
        rw [h0]
      rw [hpred, updateFirst_of_find?_none _ _ _
        (List.find?_eq_none.mpr (fun x hx => by simp))]
    | some c =>
      dsimp only
      have h := hres g
      rw [hfc] at h
      cases hc0 : findCampaign C0 aid g with
      | none => rw [hc0] at h; simp at h
      | some c0 =>
        rw [hc0] at h
        have hid : c0.id = c.id := (Option.some.inj h).symm
        have hpred : metWPred aid C0 r = metricKeyMatch c.id r.date := funext fun m => by
          unfold metWPred
          rw [hg]
          dsimp only
          rw [hc0]
          dsimp only
          rw [hid]
        rw [hpred]

theorem foldl_U_accounts (aid : Nat) :
    ∀ (rows : List MetricRow) (t : Store),
      (rows.foldl (updateMetricRow aid) t).accounts = t.accounts := by
  intro rows
  induction rows with
  | nil => intro t; rfl
  | cons r rest ih =>
    intro t
    rw [List.foldl_cons, ih, updateMetricRow_accounts]

theorem foldl_U_nextId (aid : Nat) :
    ∀ (rows : List MetricRow) (t : Store),
      (rows.foldl (updateMetricRow aid) t).nextId = t.nextId := by
  intro rows
  induction rows with
  | nil => intro t; rfl
  | cons r rest ih =>
    intro t
    rw [List.foldl_cons, ih, updateMetricRow_nextId]

theorem foldl_U_campaigns (aid : Nat) :
    ∀ (rows : List MetricRow) (t : Store),
      (rows.foldl (updateMetricRow aid) t).campaigns =
        rows.foldl (kstep (camWPred aid) renameW) t.campaigns := by
  intro rows
  induction rows with
  | nil => intro t; rfl
  | cons r rest ih =>
    intro t
    rw [List.foldl_cons, List.foldl_cons, ih, updateMetricRow_campaigns_eq]

theorem kstep_cam_idmap (aid aid2 : Nat) (g2 : String) (r : MetricRow)
    (cs : List Campaign) :
    ((kstep (camWPred aid) renameW cs r).find? (campaignKeyMatch aid2 g2)).map
        (fun c => c.id) =
      (cs.find? (campaignKeyMatch aid2 g2)).map (fun c => c.id) := by
  unfold kstep
  exact find?_updateFirst_map (camWPred aid r) (campaignKeyMatch aid2 g2)
    (renameW r) (fun c => c.id) cs
    (fun x hx => campaignKeyMatch_renameW aid2 g2 r x)
    (fun x hx hq => rfl)

theorem foldl_kstep_cam_idmap (aid aid2 : Nat) (g2 : String) :
    ∀ (ws : List MetricRow) (cs : List Campaign),
      ((ws.foldl (kstep (camWPred aid) renameW) cs).find?
        (campaignKeyMatch aid2 g2)).map (fun c => c.id) =
      (cs.find? (campaignKeyMatch aid2 g2)).map (fun c => c.id) := by
  intro ws
  induction ws with
  | nil => intro cs; rfl
  | cons w rest ih =>
    intro cs
    rw [List.foldl_cons, ih, kstep_cam_idmap]

theorem foldl_U_idmap (aid : Nat) (rows : List MetricRow) (t : Store) (g : String) :
    (findCampaign (rows.foldl (updateMetricRow aid) t).campaigns aid g).map
        (fun c => c.id) =
      (findCampaign t.campaigns aid g).map (fun c => c.id) := by
  rw [findCampaign_eq, findCampaign_eq, foldl_U_campaigns]
  exact foldl_kstep_cam_idmap aid aid g rows t.campaigns

theorem foldl_U_metrics (aid : Nat) (C0 : List Campaign) :
    ∀ (rows : List MetricRow) (t : Store),
      (∀ g, (findCampaign t.campaigns aid g).map (fun c => c.id) =
        (findCampaign C0 aid g).map (fun c => c.id)) →
      (rows.foldl (updateMetricRow aid) t).metrics =
        rows.foldl (kstep (metWPred aid C0) applyRow) t.metrics := by
  intro rows
  induction rows with
  | nil => intro t hres; rfl
  | cons r rest ih =>
    intro t hres
    rw [List.foldl_cons, List.foldl_cons]
    rw [ih (updateMetricRow aid t r) (fun g => ?_), updateMetricRow_metrics_eq aid C0 t r hres]
    have hone : (findCampaign (updateMetricRow aid t r).campaigns aid g).map
        (fun c => c.id) = (findCampaign t.campaigns aid g).map (fun c => c.id) := by
      rw [findCampaign_eq, findCampaign_eq, updateMetricRow_campaigns_eq]
      exact kstep_cam_idmap aid aid g r t.campaigns
    rw [hone]
    exact hres g

/-- Replaying the whole update phase of the row loop on its own result is
the identity. -/
theorem foldl_U_replay (aid : Nat) (rows : List MetricRow) (t : Store) :
    rows.foldl (updateMetricRow aid) (rows.foldl (updateMetricRow aid) t) =
      rows.foldl (updateMetricRow aid) t := by
  apply storeFieldsExt
  · simp only [foldl_U_accounts]
  · simp only [foldl_U_campaigns]
    exact foldl_kstep_replay (camWPred aid) renameW
      (fun w w2 x => camWPred_renameW aid w w2 x)
      (fun σ x => renameW_chain_idem σ x) t.campaigns rows
  · rw [foldl_U_metrics aid t.campaigns rows (rows.foldl (updateMetricRow aid) t)
        (fun g => foldl_U_idmap aid rows t g),
      foldl_U_metrics aid t.campaigns rows t (fun g => rfl)]
    exact foldl_kstep_replay (metWPred aid t.campaigns) applyRow
      (fun w w2 x => metWPred_applyRow aid t.campaigns w w2 x)
      (fun σ x => applyRow_chain_idem σ x) t.metrics rows
  · simp only [foldl_U_nextId]


theorem updateFirst_append_left (p : α → Bool) (f : α → α) (l l2 : List α)
    (h : (l.find? p).isSome) : updateFirst p f (l ++ l2) = updateFirst p f l ++ l2 := by
  induction l with
  | nil => simp at h
  | cons x xs ih =>
    rw [List.cons_append, updateFirst_cons, updateFirst_cons]
    by_cases hp : p x = true
    · rw [if_pos hp, if_pos hp, List.cons_append]
    · rw [if_neg hp, if_neg hp, List.cons_append]
      rw [List.find?_cons_of_neg _ hp] at h
      rw [ih h]

theorem find?_append_none (p : α → Bool) (l l2 : List α) (h : l.find? p = none) :
    (l ++ l2).find? p = l2.find? p := by
  induction l with
  | nil => rfl
  | cons x xs ih =>
    rw [List.cons_append]
    by_cases hp : p x = true
    · rw [List.find?_cons_of_pos _ hp] at h
      exact absurd h (by simp)
    · rw [List.find?_cons_of_neg _ hp] at h
      rw [List.find?_cons_of_neg _ hp]
      exact ih h

theorem find?_updateFirst_isSome (p q : α → Bool) (f : α → α) (l : List α)
    (hq : ∀ x, p x = true → q (f x) = q x) :
    ((updateFirst p f l).find? q).isSome = (l.find? q).isSome := by
  have h := find?_updateFirst_map p q f (fun x => ()) l hq (fun x hx hqx => rfl)
  cases h1 : (updateFirst p f l).find? q <;> cases h2 : l.find? q <;>
    rw [h1, h2] at h <;> simp_all

/-! Branch lemmas for the row-loop steps. -/

theorem ensureMetricRow_gnone (aid : Nat) (s : Store) (r : MetricRow)
    (hg : r.g_id = none) : ensureMetricRow aid s r = s := by
  unfold ensureMetricRow
  rw [hg]

theorem updateMetricRow_gnone (aid : Nat) (s : Store) (r : MetricRow)
    (hg : r.g_id = none) : updateMetricRow aid s r = s := by
  unfold updateMetricRow
  rw [hg]

theorem ensureMetricRow_nofc (aid : Nat) (s : Store) (r : MetricRow) (g : String)
    (hg : r.g_id = some g) (hfc : findCampaign s.campaigns aid g = none) :
    ensureMetricRow aid s r = s := by
  unfold ensureMetricRow
  rw [hg]
  dsimp only
  rw [hfc]

theorem updateMetricRow_nofc (aid : Nat) (s : Store) (r : MetricRow) (g : String)
    (hg : r.g_id = some g) (hfc : findCampaign s.campaigns aid g = none) :
    updateMetricRow aid s r = s := by
  unfold updateMetricRow
  rw [hg]
  dsimp only
  rw [hfc]

theorem ensureMetricRow_absent (aid : Nat) (s : Store) (r : MetricRow) (g : String)
    (c : Campaign) (hg : r.g_id = some g)
    (hfc : findCampaign s.campaigns aid g = some c)
    (habs : (s.metrics.find? (metricKeyMatch c.id r.date)).isSome = false) :
    ensureMetricRow aid s r = { s with metrics := s.metrics ++ [freshMetric aid c.id r] } := by
  unfold ensureMetricRow
  rw [hg]
  dsimp only
  rw [hfc]
  dsimp only
  rw [if_neg (by rw [habs]; simp)]

/-- Metric ensuring only ever appends rows. -/
theorem ensureMetricRow_metrics_suffix (aid : Nat) (s : Store) (r : MetricRow) :
    ∃ l2, (ensureMetricRow aid s r).metrics = s.metrics ++ l2 := by
  unfold ensureMetricRow
  cases r.g_id with
  | none => exact ⟨[], by simp⟩
  | some g =>
    dsimp only
    cases findCampaign s.campaigns aid g with
    | none => exact ⟨[], by simp⟩
    | some c =>
      dsimp only
      by_cases hp : (s.metrics.find? (metricKeyMatch c.id r.date)).isSome = true
      · rw [if_pos hp]
        exact ⟨[], by simp⟩
      · rw [if_neg hp]
        exact ⟨[freshMetric aid c.id r], rfl⟩

theorem E_noop_of_mReady (aid : Nat) (t : Store) (r : MetricRow)
    (h : mReady aid t r) : ensureMetricRow aid t r = t := by
  cases hg : r.g_id with
  | none => exact ensureMetricRow_gnone aid t r hg
  | some g =>
    cases hfc : findCampaign t.campaigns aid g with
    | none => exact ensureMetricRow_nofc aid t r g hg hfc
    | some c => exact ensureMetricRow_present aid t r g c hg hfc (h g c hg hfc)

theorem mReady_after_E (aid : Nat) (t : Store) (r : MetricRow) :
    mReady aid (ensureMetricRow aid t r) r := by
  intro g c hg hfc
  rw [ensureMetricRow_campaigns] at hfc
  by_cases hp : (t.metrics.find? (metricKeyMatch c.id r.date)).isSome = true
  · rw [ensureMetricRow_present aid t r g c hg hfc hp]
    exact hp
  · rw [ensureMetricRow_absent aid t r g c hg hfc (by simpa using hp)]
    show ((t.metrics ++ [freshMetric aid c.id r]).find? (metricKeyMatch c.id r.date)).isSome = true
    rw [find?_append_none _ _ _ (Option.not_isSome_iff_eq_none.mp (by simpa using hp))]
    rw [List.find?_cons_of_pos _ (by simp [metricKeyMatch, freshMetric])]
    rfl

theorem mReady_mono_E (aid : Nat) (t : Store) (r x : MetricRow)
    (h : mReady aid t r) : mReady aid (ensureMetricRow aid t x) r := by
  intro g c hg hfc
  rw [ensureMetricRow_campaigns] at hfc
  obtain ⟨l2, hl2⟩ := ensureMetricRow_metrics_suffix aid t x
  rw [hl2, find?_append_of_isSome _ _ _ (by rw [h g c hg hfc])]
  exact h g c hg hfc

theorem mReady_mono_U (aid : Nat) (t : Store) (r x : MetricRow)
    (h : mReady aid t r) : mReady aid (updateMetricRow aid t x) r := by
  intro g c hg hfc
  have hmap : (findCampaign (updateMetricRow aid t x).campaigns aid g).map
      (fun c2 => c2.id) = (findCampaign t.campaigns aid g).map (fun c2 => c2.id) := by
    rw [findCampaign_eq, findCampaign_eq, updateMetricRow_campaigns_eq]
    exact kstep_cam_idmap aid aid g x t.campaigns
  rw [hfc] at hmap
  cases hfc2 : findCampaign t.campaigns aid g with
  | none => rw [hfc2] at hmap; simp at hmap
  | some c2 =>
    rw [hfc2] at hmap
    have hid : c.id = c2.id := Option.some.inj hmap
    have hpres := h g c2 hg hfc2
    rw [updateMetricRow_metrics_eq aid t.campaigns t x (fun g2 => rfl)]
    unfold kstep
    rw [find?_updateFirst_isSome _ _ _ _ (fun m hm => applyRow_keyMatch x m c.id r.date)]
    rw [hid]
    exact hpres


/-- Ensuring a later row's metric commutes past an update of a row whose
metric already exists. -/
theorem ens_upd_comm (aid : Nat) (t : Store) (r r2 : MetricRow) (h : mReady aid t r) :
    ensureMetricRow aid (updateMetricRow aid t r) r2 =
      updateMetricRow aid (ensureMetricRow aid t r2) r := by
  cases hg : r.g_id with
  | none => rw [updateMetricRow_gnone aid t r hg, updateMetricRow_gnone aid _ r hg]
  | some g =>
    cases hfc : findCampaign t.campaigns aid g with
    | none =>
      rw [updateMetricRow_nofc aid t r g hg hfc,
        updateMetricRow_nofc aid _ r g hg (by rw [ensureMetricRow_campaigns]; exact hfc)]
    | some c =>
      have hpres := h g c hg hfc
      cases hg2 : r2.g_id with
      | none => rw [ensureMetricRow_gnone aid _ r2 hg2, ensureMetricRow_gnone aid t r2 hg2]
      | some g2 =>
        have hmap : (findCampaign (updateMetricRow aid t r).campaigns aid g2).map
            (fun c2 => c2.id) = (findCampaign t.campaigns aid g2).map (fun c2 => c2.id) := by
          rw [findCampaign_eq, findCampaign_eq, updateMetricRow_campaigns_eq]
          exact kstep_cam_idmap aid aid g2 r t.campaigns
        cases hfc2 : findCampaign t.campaigns aid g2 with
        | none =>
          have hnone : findCampaign (updateMetricRow aid t r).campaigns aid g2 = none := by
            rw [hfc2] at hmap
            exact Option.map_eq_none.mp hmap
          rw [ensureMetricRow_nofc aid _ r2 g2 hg2 hnone,
            ensureMetricRow_nofc aid t r2 g2 hg2 hfc2]
        | some c2 =>
          obtain ⟨c2u, hc2u, hc2uid⟩ : ∃ c2u,
              findCampaign (updateMetricRow aid t r).campaigns aid g2 = some c2u ∧
                c2u.id = c2.id := by
            rw [hfc2] at hmap
            cases hfu : findCampaign (updateMetricRow aid t r).campaigns aid g2 with
            | none => rw [hfu] at hmap; simp at hmap
            | some cu =>
              rw [hfu] at hmap
              exact ⟨cu, rfl, Option.some.inj hmap⟩
          have hpres2eq : ((updateMetricRow aid t r).metrics.find?
              (metricKeyMatch c2.id r2.date)).isSome =
              (t.metrics.find? (metricKeyMatch c2.id r2.date)).isSome := by
            rw [updateMetricRow_metrics_eq aid t.campaigns t r (fun g3 => rfl)]
            unfold kstep
            exact find?_updateFirst_isSome _ _ _ _
              (fun m hm => applyRow_keyMatch r m c2.id r2.date)
          by_cases hp2 : (t.metrics.find? (metricKeyMatch c2.id r2.date)).isSome = true
          · rw [ensureMetricRow_present aid _ r2 g2 c2u hg2 hc2u
              (by rw [hc2uid, hpres2eq]; exact hp2),
              ensureMetricRow_present aid t r2 g2 c2 hg2 hfc2 hp2]
          · have hp2f : (t.metrics.find? (metricKeyMatch c2.id r2.date)).isSome = false := by
              simpa using hp2
            rw [ensureMetricRow_absent aid _ r2 g2 c2u hg2 hc2u
              (by rw [hc2uid, hpres2eq]; exact hp2f),
              ensureMetricRow_absent aid t r2 g2 c2 hg2 hfc2 hp2f]
            rw [hc2uid]
            rw [updateMetricRow_decomp aid t r g c hg hfc]
            rw [updateMetricRow_decomp aid _ r g c hg
              (by show findCampaign t.campaigns aid g = some c; exact hfc)]
            apply storeFieldsExt
            · rfl
            · rfl
            · show updateFirst (metricKeyMatch c.id r.date) (applyRow r) t.metrics ++
                  [freshMetric aid c2.id r2] =
                updateFirst (metricKeyMatch c.id r.date) (applyRow r)
                  (t.metrics ++ [freshMetric aid c2.id r2])
              rw [updateFirst_append_left _ _ _ _ hpres]
            · rfl


theorem foldl_E_U_comm (aid : Nat) :
    ∀ (l : List MetricRow) (t : Store) (r : MetricRow), mReady aid t r →
      l.foldl (ensureMetricRow aid) (updateMetricRow aid t r) =
        updateMetricRow aid (l.foldl (ensureMetricRow aid) t) r := by
  intro l
  induction l with
  | nil => intro t r h; rfl
  | cons x l2 ih =>
    intro t r h
    rw [List.foldl_cons, List.foldl_cons, ens_upd_comm aid t r x h]
    exact ih (ensureMetricRow aid t x) r (mReady_mono_E aid t r x h)

/-- The interleaved find-or-create/update row loop equals the two-phase
form: first ensure every metric row exists, then apply every update. -/
theorem rowLoop_sep (aid : Nat) :
    ∀ (rows : List MetricRow) (t : Store),
      rows.foldl (fun t2 r => updateMetricRow aid (ensureMetricRow aid t2 r) r) t =
        rows.foldl (updateMetricRow aid) (rows.foldl (ensureMetricRow aid) t) := by
  intro rows
  induction rows with
  | nil => intro t; rfl
  | cons r rest ih =>
    intro t
    rw [List.foldl_cons, ih]
    rw [List.foldl_cons, List.foldl_cons]
    rw [foldl_E_U_comm aid rest (ensureMetricRow aid t r) r (mReady_after_E aid t r)]

theorem mReady_mono_foldl_E (aid : Nat) :
    ∀ (l : List MetricRow) (t : Store) (r : MetricRow), mReady aid t r →
      mReady aid (l.foldl (ensureMetricRow aid) t) r := by
  intro l
  induction l with
  | nil => intro t r h; exact h
  | cons x l2 ih =>
    intro t r h
    rw [List.foldl_cons]
    exact ih _ r (mReady_mono_E aid t r x h)

theorem mReady_mono_foldl_U (aid : Nat) :
    ∀ (l : List MetricRow) (t : Store) (r : MetricRow), mReady aid t r →
      mReady aid (l.foldl (updateMetricRow aid) t) r := by
  intro l
  induction l with
  | nil => intro t r h; exact h
  | cons x l2 ih =>
    intro t r h
    rw [List.foldl_cons]
    exact ih _ r (mReady_mono_U aid t r x h)

/-- After the ensure phase, every processed row is ready. -/
theorem foldl_E_ready (aid : Nat) :
    ∀ (rows : List MetricRow) (t : Store) (r : MetricRow), r ∈ rows →
      mReady aid (rows.foldl (ensureMetricRow aid) t) r := by
  intro rows
  induction rows with
  | nil => intro t r h; exact absurd h (List.not_mem_nil r)
  | cons x rest ih =>
    intro t r h
    rw [List.foldl_cons]
    rcases List.mem_cons.mp h with rfl | hmem
    · exact mReady_mono_foldl_E aid rest _ r (mReady_after_E aid t r)
    · exact ih (ensureMetricRow aid t x) r hmem

/-- When every row is already ready, the find-or-create steps of the row
loop do nothing and the loop degenerates to the update phase. -/
theorem rowLoop_eq_U_of_ready (aid : Nat) :
    ∀ (rows : List MetricRow) (t : Store), (∀ r ∈ rows, mReady aid t r) →
      rows.foldl (fun t2 r => updateMetricRow aid (ensureMetricRow aid t2 r) r) t =
        rows.foldl (updateMetricRow aid) t := by
  intro rows
  induction rows with
  | nil => intro t h; rfl
  | cons r rest ih =>
    intro t h
    rw [List.foldl_cons, List.foldl_cons,
      E_noop_of_mReady aid t r (h r (List.mem_cons_self r rest))]
    exact ih (updateMetricRow aid t r)
      (fun r2 h2 => mReady_mono_U aid t r2 r (h r2 (List.mem_cons_of_mem r h2)))

/-! Campaign-creation phase lemmas. -/

theorem ensureCampaignRow_gnone (aid : Nat) (s : Store) (r : MetricRow)
    (hg : r.g_id = none) : ensureCampaignRow aid s r = s := by
  unfold ensureCampaignRow
  rw [hg]

theorem ensureCampaignRow_found (aid : Nat) (s : Store) (r : MetricRow) (g : String)
    (c : Campaign) (hg : r.g_id = some g)
    (hfc : findCampaign s.campaigns aid g = some c) : ensureCampaignRow aid s r = s := by
  unfold ensureCampaignRow
  rw [hg]
  dsimp only
  rw [hfc]

theorem ensureCampaignRow_campaigns_suffix (aid : Nat) (s : Store) (r : MetricRow) :
    ∃ l2, (ensureCampaignRow aid s r).campaigns = s.campaigns ++ l2 := by
  unfold ensureCampaignRow
  cases r.g_id with
  | none => exact ⟨[], by simp⟩
  | some g =>
    dsimp only
    cases findCampaign s.campaigns aid g with
    | none => exact ⟨[⟨s.nextId, aid, g, r.campaign_name⟩], rfl⟩
    | some c => exact ⟨[], by simp⟩

theorem Ec_noop_of_camReady (aid : Nat) (t : Store) (r : MetricRow)
    (h : camReady aid t r) : ensureCampaignRow aid t r = t := by
  cases hg : r.g_id with
  | none => exact ensureCampaignRow_gnone aid t r hg
  | some g =>
    cases hfc : findCampaign t.campaigns aid g with
    | none => exact absurd (h g hg) (by rw [hfc]; simp)
    | some c => exact ensureCampaignRow_found aid t r g c hg hfc

theorem camReady_mono_Ec (aid : Nat) (t : Store) (r x : MetricRow)
    (h : camReady aid t r) : camReady aid (ensureCampaignRow aid t x) r := by
  intro g hg
  obtain ⟨l2, hl2⟩ := ensureCampaignRow_campaigns_suffix aid t x
  have h2 := h g hg
  rw [findCampaign_eq] at h2 ⊢
  rw [hl2, find?_append_of_isSome _ _ _ (by rw [h2])]
  exact h2

theorem camReady_after_Ec (aid : Nat) (t : Store) (r : MetricRow) :
    camReady aid (ensureCampaignRow aid t r) r := by
  intro g hg
  cases hfc : findCampaign t.campaigns aid g with
  | some c =>
    rw [ensureCampaignRow_found aid t r g c hg hfc, hfc]
    rfl
  | none =>
    have hEc : ensureCampaignRow aid t r =
        { t with campaigns := t.campaigns ++ [⟨t.nextId, aid, g, r.campaign_name⟩],
                 nextId := t.nextId + 1 } := by
      unfold ensureCampaignRow
      rw [hg]
      dsimp only
      rw [hfc]
    rw [hEc]
    show ((t.campaigns ++ [(⟨t.nextId, aid, g, r.campaign_name⟩ : Campaign)]).find?
      (campaignKeyMatch aid g)).isSome = true
    rw [find?_append_none _ _ _ (findCampaign_eq t.campaigns aid g ▸ hfc)]
    rw [List.find?_cons_of_pos _ (by simp [campaignKeyMatch])]
    rfl

theorem camReady_mono_foldl_Ec (aid : Nat) :
    ∀ (l : List MetricRow) (t : Store) (r : MetricRow), camReady aid t r →
      camReady aid (l.foldl (ensureCampaignRow aid) t) r := by
  intro l
  induction l with
  | nil => intro t r h; exact h
  | cons x l2 ih =>
    intro t r h
    rw [List.foldl_cons]
    exact ih _ r (camReady_mono_Ec aid t r x h)

theorem foldl_Ec_ready (aid : Nat) :
    ∀ (rows : List MetricRow) (t : Store) (r : MetricRow), r ∈ rows →
      camReady aid (rows.foldl (ensureCampaignRow aid) t) r := by
  intro rows
  induction rows with
  | nil => intro t r h; exact absurd h (List.not_mem_nil r)
  | cons x rest ih =>
    intro t r h
    rw [List.foldl_cons]
    rcases List.mem_cons.mp h with rfl | hmem
    · exact camReady_mono_foldl_Ec aid rest _ r (camReady_after_Ec aid t r)
    · exact ih (ensureCampaignRow aid t x) r hmem

theorem camReady_mono_E (aid : Nat) (t : Store) (r x : MetricRow)
    (h : camReady aid t r) : camReady aid (ensureMetricRow aid t x) r := by
  intro g hg
  rw [findCampaign_eq, ensureMetricRow_campaigns]
  exact (findCampaign_eq t.campaigns aid g) ▸ h g hg

theorem camReady_mono_U (aid : Nat) (t : Store) (r x : MetricRow)
    (h : camReady aid t r) : camReady aid (updateMetricRow aid t x) r := by
  intro g hg
  have hmap : (findCampaign (updateMetricRow aid t x).campaigns aid g).map
      (fun c2 => c2.id) = (findCampaign t.campaigns aid g).map (fun c2 => c2.id) := by
    rw [findCampaign_eq, findCampaign_eq, updateMetricRow_campaigns_eq]
    exact kstep_cam_idmap aid aid g x t.campaigns
  have h2 := h g hg
  cases hfu : findCampaign (updateMetricRow aid t x).campaigns aid g with
  | some cu => rfl
  | none =>
    rw [hfu] at hmap
    rw [Option.map_eq_none.mp hmap.symm] at h2
    simp at h2

theorem camReady_mono_rowLoop (aid : Nat) :
    ∀ (rows : List MetricRow) (t : Store) (r : MetricRow), camReady aid t r →
      camReady aid
        (rows.foldl (fun t2 r2 => updateMetricRow aid (ensureMetricRow aid t2 r2) r2) t) r := by
  intro rows
  induction rows with
  | nil => intro t r h; exact h
  | cons x rest ih =>
    intro t r h
    rw [List.foldl_cons]
    exact ih _ r (camReady_mono_U aid _ r x (camReady_mono_E aid t r x h))

theorem foldl_noop (step : Store → MetricRow → Store) (rows : List MetricRow) (t : Store)
    (h : ∀ r ∈ rows, step t r = t) : rows.foldl step t = t := by
  induction rows with
  | nil => rfl
  | cons x rest ih =>
    rw [List.foldl_cons, h x (List.mem_cons_self x rest)]
    exact ih (fun r hr => h r (List.mem_cons_of_mem x hr))


/-- Reconciling the same rows twice for the same account yields the same
session state as reconciling them once. -/
theorem processMetrics_idem (aid : Nat) (rows : List MetricRow) (s : Store) :
    processMetrics aid rows (processMetrics aid rows s) = processMetrics aid rows s := by
  unfold processMetrics
  by_cases h1 : rows.isEmpty
  · simp only [if_pos h1]
  by_cases h2 : rows.all (fun r => r.g_id.isNone)
  · simp only [if_neg h1, if_pos h2]
  simp only [if_neg h1, if_neg h2]
  have hcam : rows.foldl (ensureCampaignRow aid)
      (rows.foldl (fun t r => updateMetricRow aid (ensureMetricRow aid t r) r)
        (rows.foldl (ensureCampaignRow aid) s)) =
      rows.foldl (fun t r => updateMetricRow aid (ensureMetricRow aid t r) r)
        (rows.foldl (ensureCampaignRow aid) s) := by
    apply foldl_noop
    intro r hr
    apply Ec_noop_of_camReady
    exact camReady_mono_rowLoop aid rows _ r (foldl_Ec_ready aid rows s r hr)
  rw [hcam]
  have hready : ∀ r ∈ rows, mReady aid
      (rows.foldl (fun t r2 => updateMetricRow aid (ensureMetricRow aid t r2) r2)
        (rows.foldl (ensureCampaignRow aid) s)) r := by
    intro r hr
    rw [rowLoop_sep aid rows]
    exact mReady_mono_foldl_U aid rows _ r (foldl_E_ready aid rows _ r hr)
  rw [rowLoop_eq_U_of_ready aid rows _ hready]
  rw [rowLoop_sep aid rows]
  exact foldl_U_replay aid rows _


theorem find?_updateFirst_self (p : α → Bool) (f : α → α) (l : List α)
    (hp : ∀ x, p (f x) = p x) :
    (updateFirst p f l).find? p = (l.find? p).map f := by
  induction l with
  | nil => rfl
  | cons x xs ih =>
    rw [updateFirst_cons]
    by_cases hx : p x = true
    · rw [if_pos hx, List.find?_cons_of_pos _ ((hp x).trans hx),
        List.find?_cons_of_pos _ hx]
      rfl
    · rw [if_neg hx, List.find?_cons_of_neg _ hx, List.find?_cons_of_neg _ hx]
      exact ih

theorem updateFirst_idem (p : α → Bool) (f : α → α) (l : List α)
    (hp : ∀ x, p (f x) = p x) (hf : ∀ x, f (f x) = f x) :
    updateFirst p f (updateFirst p f l) = updateFirst p f l := by
  induction l with
  | nil => rfl
  | cons x xs ih =>
    rw [updateFirst_cons]
    by_cases hx : p x = true
    · rw [if_pos hx, updateFirst_cons, if_pos ((hp x).trans hx), hf]
    · rw [if_neg hx, updateFirst_cons, if_neg hx, ih]

/-- Replacing the accounts list is invisible to every row-loop step. -/
theorem ensureCampaignRow_withAccounts (aid : Nat) (s : Store) (r : MetricRow)
    (A : List GoogleAdsAccount) :
    ensureCampaignRow aid { s with accounts := A } r =
      { ensureCampaignRow aid s r with accounts := A } := by
  unfold ensureCampaignRow
  cases r.g_id with
  | none => rfl
  | some g =>
    dsimp only
    cases findCampaign s.campaigns aid g with
    | none => rfl
    | some c => rfl

theorem ensureMetricRow_withAccounts (aid : Nat) (s : Store) (r : MetricRow)
    (A : List GoogleAdsAccount) :
    ensureMetricRow aid { s with accounts := A } r =
      { ensureMetricRow aid s r with accounts := A } := by
  unfold ensureMetricRow
  cases r.g_id with
  | none => rfl
  | some g =>
    dsimp only
    cases findCampaign s.campaigns aid g with
    | none => rfl
    | some c =>
      dsimp only
      split_ifs <;> rfl

theorem updateMetricRow_withAccounts (aid : Nat) (s : Store) (r : MetricRow)
    (A : List GoogleAdsAccount) :
    updateMetricRow aid { s with accounts := A } r =
      { updateMetricRow aid s r with accounts := A } := by
  unfold updateMetricRow
  cases r.g_id with
  | none => rfl
  | some g =>
    dsimp only
    cases findCampaign s.campaigns aid g with
    | none => rfl
    | some c => rfl

theorem processMetrics_withAccounts (aid : Nat) (rows : List MetricRow) :
    ∀ (s : Store) (A : List GoogleAdsAccount),
      processMetrics aid rows { s with accounts := A } =
        { processMetrics aid rows s with accounts := A } := by
  have hEc : ∀ (l : List MetricRow) (s : Store) (A : List GoogleAdsAccount),
      l.foldl (ensureCampaignRow aid) { s with accounts := A } =
        { l.foldl (ensureCampaignRow aid) s with accounts := A } := by
    intro l
    induction l with
    | nil => intro s A; rfl
    | cons x l2 ih =>
      intro s A
      rw [List.foldl_cons, List.foldl_cons, ensureCampaignRow_withAccounts, ih]
  have hLoop : ∀ (l : List MetricRow) (s : Store) (A : List GoogleAdsAccount),
      l.foldl (fun t r => updateMetricRow aid (ensureMetricRow aid t r) r)
          { s with accounts := A } =
        { l.foldl (fun t r => updateMetricRow aid (ensureMetricRow aid t r) r) s with
          accounts := A } := by
    intro l
    induction l with
    | nil => intro s A; rfl
    | cons x l2 ih =>
      intro s A
      rw [List.foldl_cons, List.foldl_cons, ensureMetricRow_withAccounts,
        updateMetricRow_withAccounts, ih]
  intro s A
  unfold processMetrics
  by_cases h1 : rows.isEmpty
  · simp only [if_pos h1]
  by_cases h2 : rows.all (fun r => r.g_id.isNone)
  · simp only [if_neg h1, if_pos h2]
  simp only [if_neg h1, if_neg h2]
  rw [hEc, hLoop]

theorem processMetrics_accounts (aid : Nat) (rows : List MetricRow) (s : Store) :
    (processMetrics aid rows s).accounts = s.accounts := by
  have h := processMetrics_withAccounts aid rows s s.accounts
  have hs : ({ s with accounts := s.accounts } : Store) = s := rfl
  rw [hs] at h
  rw [h]

/-- `processMetrics` commutes with stamping an account's sync time: the
former never reads or writes accounts, the latter touches only them. -/
theorem processMetrics_setLastSync_comm (aid : Nat) (rows : List MetricRow)
    (s : Store) (cid : String) (now : Int) :
    processMetrics aid rows (setLastSync s cid now) =
      setLastSync (processMetrics aid rows s) cid now := by
  show processMetrics aid rows { s with accounts := _ } = _
  rw [processMetrics_withAccounts]
  unfold setLastSync
  rw [processMetrics_accounts]


theorem getOrCreateAccount_name (s : Store) (cid nm rt : String) (uid : Nat) (mgr : Bool) :
    (getOrCreateAccount s cid nm rt uid mgr).1.name = nm := by
  unfold getOrCreateAccount
  cases h : s.accounts.find? (fun a => a.customer_id == cid) with
  | none => rfl
  | some a =>
    dsimp only
    split_ifs with hn
    · exact hn
    · rfl

theorem getOrCreateAccount_find (s : Store) (cid nm rt : String) (uid : Nat) (mgr : Bool) :
    (getOrCreateAccount s cid nm rt uid mgr).2.accounts.find?
        (fun a => a.customer_id == cid) =
      some (getOrCreateAccount s cid nm rt uid mgr).1 := by
  unfold getOrCreateAccount
  cases h : s.accounts.find? (fun a => a.customer_id == cid) with
  | none =>
    dsimp only
    rw [find?_append_none _ _ _ h, List.find?_cons_of_pos _ (by simp)]
  | some a =>
    dsimp only
    split_ifs with hn
    · exact h
    · dsimp only
      rw [find?_updateFirst_self (fun a2 => a2.customer_id == cid)
        (fun x => { x with name := nm }) s.accounts (fun x => rfl), h]
      rfl

theorem getOrCreate_of_found (T : Store) (cid nm rt : String) (uid : Nat) (mgr : Bool)
    (a : GoogleAdsAccount)
    (hfind : T.accounts.find? (fun x => x.customer_id == cid) = some a)
    (hname : a.name = nm) : getOrCreateAccount T cid nm rt uid mgr = (a, T) := by
  unfold getOrCreateAccount
  rw [hfind]
  dsimp only
  rw [if_pos hname]

theorem setLastSync_idem (s : Store) (cid : String) (now : Int) :
    setLastSync (setLastSync s cid now) cid now = setLastSync s cid now := by
  unfold setLastSync
  apply storeFieldsExt
  · exact updateFirst_idem (fun a : GoogleAdsAccount => a.customer_id == cid)
      (fun a : GoogleAdsAccount => { a with last_sync_at := some now }) s.accounts
      (fun x => rfl) (fun x => rfl)
  · rfl
  · rfl
  · rfl

/-- Running the per-account reconciliation of `sync_all_accounts` twice
with the same fetched rows yields a store identical to running it once:
the second run finds the account, the campaigns and every metric row
already in place, updates them to the values they already hold, and
re-stamps the same sync time. -/
theorem reconcileAccount_idem (info : AccountInfo) (rt : String) (uid : Nat)
    (now : Int) (rows : List MetricRow) (s : Store) :
    reconcileAccount info rt uid now rows (reconcileAccount info rt uid now rows s) =
      reconcileAccount info rt uid now rows s := by
  have hname := getOrCreateAccount_name s info.id info.name rt uid false
  have hfind1 := getOrCreateAccount_find s info.id info.name rt uid false
  have hrun1 : reconcileAccount info rt uid now rows s =
      setLastSync (processMetrics (getOrCreateAccount s info.id info.name rt uid false).1.id
        rows (getOrCreateAccount s info.id info.name rt uid false).2) info.id now := rfl
  rw [hrun1]
  have hfindT : (setLastSync (processMetrics
        (getOrCreateAccount s info.id info.name rt uid false).1.id rows
        (getOrCreateAccount s info.id info.name rt uid false).2) info.id now).accounts.find?
        (fun a => a.customer_id == info.id) =
      some { (getOrCreateAccount s info.id info.name rt uid false).1 with
             last_sync_at := some now } := by
    show (updateFirst (fun a : GoogleAdsAccount => a.customer_id == info.id)
        (fun a : GoogleAdsAccount => { a with last_sync_at := some now })
        (processMetrics (getOrCreateAccount s info.id info.name rt uid false).1.id rows
          (getOrCreateAccount s info.id info.name rt uid false).2).accounts).find?
        (fun a : GoogleAdsAccount => a.customer_id == info.id) = _
    rw [find?_updateFirst_self (fun a : GoogleAdsAccount => a.customer_id == info.id)
      (fun a : GoogleAdsAccount => { a with last_sync_at := some now }) _ (fun x => rfl),
      processMetrics_accounts, hfind1]
    rfl
  show (let p := getOrCreateAccount (setLastSync (processMetrics
          (getOrCreateAccount s info.id info.name rt uid false).1.id rows
          (getOrCreateAccount s info.id info.name rt uid false).2) info.id now)
          info.id info.name rt uid false
        let s2 := processMetrics p.1.id rows p.2
        setLastSync s2 info.id now) = _
  rw [getOrCreate_of_found _ info.id info.name rt uid false _ hfindT hname]
  show setLastSync (processMetrics
      (getOrCreateAccount s info.id info.name rt uid false).1.id rows
      (setLastSync (processMetrics
        (getOrCreateAccount s info.id info.name rt uid false).1.id rows
        (getOrCreateAccount s info.id info.name rt uid false).2) info.id now)) info.id now = _
  rw [processMetrics_setLastSync_comm, processMetrics_idem]
  exact setLastSync_idem _ info.id now

/-- C1: for every account, fixed fetched row set and store state,
reconciling twice equals reconciling once — at the `_process_metrics`
level, at the per-account processing-loop level (account upsert +
reconcile + sync stamp), and for a whole `sync_all_accounts` run over the
account with an unchanged remote: no duplicate rows appear and every
stored value is unchanged by the second run. -/
theorem C1_sync_idempotent (aid : Nat) (info : AccountInfo) (rt : String) (uid : Nat)
    (now : Int) (rows : List MetricRow) (s : Store)
    (fetch : String → Except String (List MetricRow)) :
    processMetrics aid rows (processMetrics aid rows s) = processMetrics aid rows s ∧
    reconcileAccount info rt uid now rows (reconcileAccount info rt uid now rows s) =
      reconcileAccount info rt uid now rows s ∧
    (syncAllAccounts (.ok [info]) fetch noFault rt uid now
        ((syncAllAccounts (.ok [info]) fetch noFault rt uid now s).store)).store =
      (syncAllAccounts (.ok [info]) fetch noFault rt uid now s).store := by
  refine ⟨processMetrics_idem aid rows s, reconcileAccount_idem info rt uid now rows s, ?_⟩
  show (processResults rt uid now noFault [(info, fetch info.id)]
      ((processResults rt uid now noFault [(info, fetch info.id)] s).store)).store =
    (processResults rt uid now noFault [(info, fetch info.id)] s).store
  cases hf : fetch info.id with
  | error e => rfl
  | ok rows2 =>
    show reconcileAccount info rt uid now rows2
        (reconcileAccount info rt uid now rows2 s) =
      reconcileAccount info rt uid now rows2 s
    exact reconcileAccount_idem info rt uid now rows2 s

end GAds
